import Mathlib

/-! # BifrostCalculator: expression editor and evaluation bridge

A shallow embedding of `CalculatorForm.cpp`, `CalculatorForm.h` and
`Private/Bifrost.cpp`.  The form's event handlers become functions on an
explicit `CalculatorForm` state; the serial port becomes a `Bifrost` state
that records every system call it makes; the managed runtime's text box,
string and number routines are modelled next to the code that uses them.
-/

namespace BifrostCalculatorApp

/-! ## Managed strings (`System::String`) -/

/-- Managed strings are sequences of characters. -/
abbrev Str := List Char

/-- Exceptions of the managed runtime that the handlers can meet. -/
inductive Exception where
  | ArgumentOutOfRange
  | Format
  | Overflow
  deriving DecidableEq, Repr

/-- The method `String::ToLower`, on the letters the program compares against (ASCII). -/
def ToLower (s : Str) : Str := s.map Char.toLower

/-- The method `String::Contains`: ordinal search for `pat` as a contiguous part of `s`. -/
def Contains : Str → Str → Bool
  | [], pat => pat.isEmpty
  | c :: cs, pat => pat.isPrefixOf (c :: cs) || Contains cs pat

/-- The static `String::IsNullOrEmpty` (strings of the model are never null). -/
def IsNullOrEmpty (s : Str) : Bool := s.isEmpty

/-- The predicate `Char::IsWhiteSpace`: the white-space characters that `String::Trim` removes. -/
def IsWhiteSpace (c : Char) : Bool :=
  let n := c.toNat
  (9 ≤ n && n ≤ 13) || n == 32 || n == 133 || n == 160 || n == 5760 ||
    (8192 ≤ n && n ≤ 8202) || n == 8232 || n == 8233 || n == 8239 || n == 8287 || n == 12288

/-- The method `String::Trim`: white space removed from both ends. -/
def Trim (s : Str) : Str :=
  ((s.dropWhile IsWhiteSpace).reverse.dropWhile IsWhiteSpace).reverse

/-- Worker of `Replace`: scans left to right; `skip` counts the characters of a match
that are still to be dropped. -/
def ReplaceAux (old new : Str) : Nat → Str → Str
  | _, [] => []
  | skip + 1, _ :: cs => ReplaceAux old new skip cs
  | 0, c :: cs =>
    if old.isPrefixOf (c :: cs) then new ++ ReplaceAux old new (old.length - 1) cs
    else c :: ReplaceAux old new 0 cs

/-- The method `String::Replace(old, new)`: ordinal (case-sensitive), every
non-overlapping occurrence of `old` from the left is replaced by `new`. -/
def Replace (s old new : Str) : Str := ReplaceAux old new 0 s

/-- The method `String::Insert(index, value)`. -/
def Insert (s : Str) (index : Nat) (value : Str) : Except Exception Str :=
  if index ≤ s.length then pure (s.take index ++ value ++ s.drop index)
  else throw Exception.ArgumentOutOfRange

/-- The method `String::Remove(startIndex, count)`. -/
def Remove (s : Str) (startIndex count : Int) : Except Exception Str :=
  if startIndex < 0 ∨ count < 0 ∨ (s.length : Int) < startIndex + count then
    throw Exception.ArgumentOutOfRange
  else pure (s.take startIndex.toNat ++ s.drop (startIndex.toNat + count.toNat))

/-- The static `Array::IndexOf` on an array of strings: position of the first entry equal to
`x`, or `-1`. -/
def IndexOf (arr : List Str) (x : Str) : Int :=
  if x ∈ arr then (arr.indexOf x : Nat) else -1

/-- The method `String::IndexOf(value)`: the position of the first occurrence of `value`,
or `-1`. -/
def StringIndexOf : Str → Str → Int
  | [], value => if value = [] then 0 else -1
  | c :: cs, value =>
    if value.isPrefixOf (c :: cs) then 0
    else
      let i := StringIndexOf cs value
      if i = -1 then -1 else i + 1

/-- The method `String::Substring(startIndex)`. -/
def Substring (s : Str) (startIndex : Int) : Except Exception Str :=
  if startIndex < 0 ∨ (s.length : Int) < startIndex then throw Exception.ArgumentOutOfRange
  else pure (s.drop startIndex.toNat)

/-- The error sentinel `"nan"`. -/
def nan : Str := ['n', 'a', 'n']

/-! ## The text box (`System::Windows::Forms::TextBox`) -/

/-- The state of a text box: its text, and the selection as start and length.
The caret is `SelectionStart`. -/
structure TextBox where
  Text : Str
  SelectionStart : Nat
  SelectionLength : Nat
  deriving DecidableEq, Repr

namespace TextBox

/-- The selection lies inside the text; the control keeps its state so. -/
def InBounds (tb : TextBox) : Prop :=
  tb.SelectionStart + tb.SelectionLength ≤ tb.Text.length

instance (tb : TextBox) : Decidable tb.InBounds := by
  unfold InBounds; infer_instance

/-- Getter of `SelectedText`. -/
def SelectedText (tb : TextBox) : Str :=
  (tb.Text.drop tb.SelectionStart).take tb.SelectionLength

/-- Setter of `Text`: the text is replaced and the caret goes back to the start, with
nothing selected.  (The control skips the assignment when the value is the text it already
has; the handlers only assign `""` or a shorter text, so for a selection within the text the
outcome is the same.) -/
def setText (tb : TextBox) (value : Str) : TextBox :=
  { tb with Text := value, SelectionStart := 0, SelectionLength := 0 }

/-- Setter of `SelectedText`: the selected range is replaced by `value`; the caret ends
right after the inserted text, with nothing selected. -/
def setSelectedText (tb : TextBox) (value : Str) : TextBox :=
  { tb with
    Text := tb.Text.take tb.SelectionStart ++ value ++
      tb.Text.drop (tb.SelectionStart + tb.SelectionLength)
    SelectionStart := tb.SelectionStart + value.length
    SelectionLength := 0 }

/-- Setter of `SelectionStart`: a negative value is rejected with an exception; a start
beyond the text is moved to its end; the selection length is kept as far as it fits. -/
def setSelectionStart (tb : TextBox) (value : Int) : Except Exception TextBox :=
  if value < 0 then throw Exception.ArgumentOutOfRange
  else if tb.Text.length < value.toNat then
    pure { tb with SelectionStart := tb.Text.length, SelectionLength := 0 }
  else
    pure { tb with
      SelectionStart := value.toNat
      SelectionLength := min tb.SelectionLength (tb.Text.length - value.toNat) }

end TextBox

/-! ## The form (`CalculatorForm.h`) -/

/-- The part of the form's state that the handlers read and write. -/
structure CalculatorForm where
  /-- The expression buffer. -/
  InputTextBox : TextBox
  /-- The most recent result, `""` until the first successful evaluation. -/
  LastResult : Str
  /-- The items of the history list box, most recent first. -/
  OperationsListBox : List Str
  /-- The text of the port name box. -/
  ComTextBox : Str
  /-- The text of the baud rate box. -/
  BaudRateTextBox : Str
  /-- Whether the send button is enabled. -/
  SendButtonEnabled : Bool
  /-- Whether `InputTextBox->Focus()` has been called. -/
  InputFocused : Bool
  /-- The lines written with `Debug::WriteLine`. -/
  DebugOutput : List Str
  /-- The messages shown with `MessageBox::Show`. -/
  MessageBoxes : List Str
  deriving DecidableEq, Repr

/-- The array `MathFunctions` set by the constructor (CalculatorForm.h:80). -/
def MathFunctions : List Str :=
  [['s', 'i', 'n'], ['c', 'o', 's'], ['t', 'a', 'n'], ['l', 'o', 'g'], ['l', 'n'],
   ['s', 'q', 'r', 't'], ['p', 'o', 'w']]

/-- The array `MathOperators` set by the constructor (CalculatorForm.h:81). -/
def MathOperators : List Str := [['+'], ['-'], ['/'], ['*'], ['%'], ['^']]

/-- The buttons whose click reaches `CalculatorButton_Click`.  The handler tells four of
them apart by identity; of every other button it only reads the text. -/
inductive Button where
  | SqrtButton
  | PowButton
  | AnsButton
  | PiButton
  | other (Text : Str)
  deriving DecidableEq, Repr

/-- The caption of a button (`btn->Text`), as set in `InitializeComponent`. -/
def Button.Text : Button → Str
  | .SqrtButton => ['√']
  | .PowButton => ['x', '^', 'y']
  | .AnsButton => ['A', 'N', 'S']
  | .PiButton => ['π']
  | .other t => t

namespace CalculatorForm

/-- The method `GetCaretPos` (CalculatorForm.h:66). -/
def GetCaretPos (this : CalculatorForm) : Int := this.InputTextBox.SelectionStart

/-- The method `GetCurrentExpression` (CalculatorForm.h:128). -/
def GetCurrentExpression (this : CalculatorForm) : Str := this.InputTextBox.Text

/-- The method `GetTargetCom` (CalculatorForm.h:41). -/
def GetTargetCom (this : CalculatorForm) : Str := this.ComTextBox

/-- The call `InputTextBox->Focus()`, as a request that is recorded.  The text box keeps
its selection when it gets the focus after the selection was set (by `SelectionStart`) since
the text was last assigned; what it does otherwise is modelled in `FocusForm.Focus`. -/
def Focus (this : CalculatorForm) : CalculatorForm := { this with InputFocused := true }

/-- The method `SetCaretPos` (CalculatorForm.h:114). -/
def SetCaretPos (this : CalculatorForm) (newIndex : Int) (focus : Bool) :
    Except Exception CalculatorForm :=
  if newIndex < 0 then
    pure { this with
      DebugOutput := this.DebugOutput ++
        [("Caret less than 0: " ++ toString newIndex).toList] }
  else do
    let tb ← this.InputTextBox.setSelectionStart newIndex
    let this := { this with InputTextBox := tb }
    pure (if focus then this.Focus else this)

/-- Lines 27-29 of `CalculatorButton_Click`: a buffer whose text shows the sentinel is
cleared. -/
def ClearIfNan (this : CalculatorForm) : CalculatorForm :=
  if Contains (ToLower this.InputTextBox.Text) nan then
    { this with InputTextBox := this.InputTextBox.setText [] }
  else this

/-- Lines 35-47 of `CalculatorButton_Click`: the text to insert for the button that was
clicked; `none` is the early return of the recall button when there is no last result. -/
def TextToInsert (this : CalculatorForm) (btn : Button) : Option Str :=
  if btn = Button.SqrtButton then some ['s', 'q', 'r', 't']
  else if btn = Button.PowButton then some ['^']
  else if btn = Button.AnsButton then
    (if IsNullOrEmpty this.LastResult then none else some this.LastResult)
  else some btn.Text

/-- Lines 50-63 of `CalculatorButton_Click`: an operator that meets an empty buffer takes
the last result, or `"0"`, as its left operand. -/
def LeftOperand (this : CalculatorForm) (cachedCaretPos : Int) (textToInstert : Str) :
    Except Exception (Str × CalculatorForm) :=
  if IndexOf MathOperators (ToLower textToInstert) ≠ -1 then
    if IsNullOrEmpty this.InputTextBox.Text then do
      let textToInstert ←
        (if IsNullOrEmpty this.LastResult then Insert textToInstert 0 ['0']
         else Insert textToInstert 0 this.LastResult)
      let this ← this.SetCaretPos (cachedCaretPos + textToInstert.length) false
      pure (textToInstert, this)
    else pure (textToInstert, this)
  else pure (textToInstert, this)

/-- Lines 71-86 of `CalculatorButton_Click`: the text replaces the selection; a function
name gets its parentheses, and the caret goes inside a closing pair. -/
def InsertText (this : CalculatorForm) (textToInstert : Str) :
    Except Exception (Str × CalculatorForm) :=
  if IndexOf MathFunctions (ToLower textToInstert) ≠ -1 then do
    let textToInstert := textToInstert ++ ['(', ')']
    let this := { this with InputTextBox := this.InputTextBox.setSelectedText textToInstert }
    let this ← this.SetCaretPos ((this.InputTextBox.SelectionStart : Int) - 1) false
    pure (textToInstert, this)
  else do
    let this := { this with InputTextBox := this.InputTextBox.setSelectedText textToInstert }
    if textToInstert = ['(', ')'] then do
      let this ← this.SetCaretPos ((this.InputTextBox.SelectionStart : Int) - 1) false
      pure (textToInstert, this)
    else pure (textToInstert, this)

/-- Lines 89-96 of `CalculatorButton_Click`: the caret of a one-character buffer is put
at 1; otherwise the pi button puts it at the cached caret plus the inserted length. -/
def AdjustCaret (this : CalculatorForm) (isPiButton : Bool) (cachedCaretPos : Int)
    (textToInstert : Str) : Except Exception CalculatorForm :=
  if 0 < this.InputTextBox.Text.length ∧ this.InputTextBox.Text.length < 2 then
    this.SetCaretPos 1 false
  else if isPiButton then
    this.SetCaretPos (cachedCaretPos + textToInstert.length) false
  else pure this

/-- The handler `CalculatorButton_Click` (CalculatorForm.cpp:20), for a sender that is a
button. -/
def CalculatorButton_Click (form : CalculatorForm) (btn : Button) :
    Except Exception CalculatorForm :=
  -- lines 27-29
  let this : CalculatorForm := form.ClearIfNan
  -- line 32
  let cachedCaretPos : Int := this.GetCaretPos
  -- lines 35-47
  match this.TextToInsert btn with
  | none => pure this
  | some textToInstert => do
    -- lines 50-63
    let (textToInstert, this) ← this.LeftOperand cachedCaretPos textToInstert
    -- lines 66-68
    let isPiButton : Bool := btn = Button.PiButton
    let textToInstert : Str :=
      if isPiButton then ['3', '.', '1', '4', '1', '5', '9', '3'] else textToInstert
    -- lines 71-86
    let (textToInstert, this) ← this.InsertText textToInstert
    -- lines 89-96
    let this ← this.AdjustCaret isPiButton cachedCaretPos textToInstert
    -- line 99
    pure this.Focus

/-- The handler `DelButton_Click` (CalculatorForm.cpp:203). -/
def DelButton_Click (this : CalculatorForm) : Except Exception CalculatorForm := do
  let this ←
    (if ¬ IsNullOrEmpty this.InputTextBox.SelectedText then
      pure { this with InputTextBox := this.InputTextBox.setSelectedText [] }
    else
      let caretPos : Int := this.GetCaretPos
      if 0 < caretPos ∧ 0 < this.InputTextBox.Text.length then do
        let text ← Remove this.InputTextBox.Text (caretPos - 1) 1
        let this := { this with InputTextBox := this.InputTextBox.setText text }
        let tb ← this.InputTextBox.setSelectionStart (caretPos - 1)
        pure { this with InputTextBox := tb }
      else pure this : Except Exception CalculatorForm)
  pure this.Focus

/-- The method `ClearInput` (CalculatorForm.cpp:226). -/
def ClearInput (this : CalculatorForm) : CalculatorForm :=
  { this with
    InputTextBox := this.InputTextBox.setText []
    OperationsListBox := [] }

/-- The handler `ClearButton_Click` (CalculatorForm.h:260). -/
def ClearButton_Click (this : CalculatorForm) : CalculatorForm := this.ClearInput

/-- The handler `OperationsListBox_SelectedIndexChanged` (CalculatorForm.h:135);
`SelectedItem` is the item of the history that is selected, `none` when there is none. -/
def OperationsListBox_SelectedIndexChanged (this : CalculatorForm) (SelectedItem : Option Str) :
    Except Exception CalculatorForm :=
  match SelectedItem with
  | none => pure this
  | some operation =>
    let equalIndex : Int := StringIndexOf operation ['=']
    if equalIndex ≠ -1 ∧ equalIndex < (operation.length : Int) - 1 then do
      let resultPart := Trim (← Substring operation (equalIndex + 1))
      pure { this with InputTextBox := this.InputTextBox.setSelectedText resultPart }
    else pure this

end CalculatorForm

/-! ## The serial bridge (`Private/Bifrost.cpp`) -/

/-- A handle of the operating system other than `INVALID_HANDLE_VALUE`. -/
abbrev HANDLE := Nat

/-- The system calls that `Bifrost` makes, as they are recorded in the order made. -/
inductive SysCall where
  | CreateFileW (port : Str)
  | GetCommState (h : HANDLE)
  | SetCommState (h : HANDLE) (baudrate : Nat)
  | SetCommTimeouts (h : HANDLE)
  | WriteFile (h : HANDLE) (data : Str)
  | ReadFile (h : HANDLE) (numBytes : Nat)
  | CloseHandle (h : HANDLE)
  deriving DecidableEq, Repr

/-- The operating system and the device behind the port, as far as one evaluation sees
them: what each system call answers.  `CreateFileW` answers `none` for
`INVALID_HANDLE_VALUE`; `ReadFile` answers `none` when it fails and the bytes received
otherwise. -/
structure Win32 where
  CreateFileW : Str → Option HANDLE
  GetCommState : HANDLE → Bool
  SetCommState : HANDLE → Nat → Bool
  SetCommTimeouts : HANDLE → Bool
  WriteFile : HANDLE → Str → Bool
  ReadFile : HANDLE → Nat → Option Str

/-- The class `Bifrost`: the handle (`none` is `INVALID_HANDLE_VALUE`) and the system
calls made so far. -/
structure Bifrost where
  hSerial : Option HANDLE
  Calls : List SysCall
  deriving DecidableEq, Repr

namespace Bifrost

/-- The constructor `Bifrost::Bifrost` (Bifrost.cpp:13). -/
def new : Bifrost := { hSerial := none, Calls := [] }

/-- The method `Bifrost::Close` (Bifrost.cpp:68). -/
def Close (this : Bifrost) : Bifrost :=
  match this.hSerial with
  | some h => { hSerial := none, Calls := this.Calls ++ [SysCall.CloseHandle h] }
  | none => this

/-- The method `Bifrost::Open` (Bifrost.cpp:25). -/
def Open (os : Win32) (this : Bifrost) (port : Str) (baudrate : Nat) : Bool × Bifrost :=
  let this : Bifrost :=
    { hSerial := os.CreateFileW port, Calls := this.Calls ++ [SysCall.CreateFileW port] }
  match this.hSerial with
  | none => (false, this)
  | some h =>
    let this := { this with Calls := this.Calls ++ [SysCall.GetCommState h] }
    if ¬ os.GetCommState h then (false, this.Close)
    else
      let this := { this with Calls := this.Calls ++ [SysCall.SetCommState h baudrate] }
      if ¬ os.SetCommState h baudrate then (false, this.Close)
      else
        let this := { this with Calls := this.Calls ++ [SysCall.SetCommTimeouts h] }
        if ¬ os.SetCommTimeouts h then (false, this.Close)
        else (true, this)

/-- The method `Bifrost::WriteData` (Bifrost.cpp:81). -/
def WriteData (os : Win32) (this : Bifrost) (data : Str) : Bool × Bifrost :=
  match this.hSerial with
  | none => (false, this)
  | some h =>
    let this := { this with Calls := this.Calls ++ [SysCall.WriteFile h data] }
    if ¬ os.WriteFile h data then (false, this) else (true, this)

/-- The method `Bifrost::ReadData` (Bifrost.cpp:98): at most `numBytes` bytes are taken,
and the result is the C string in the buffer, which stops at the first NUL. -/
def ReadData (os : Win32) (this : Bifrost) (numBytes : Nat) : Str × Bifrost :=
  match this.hSerial with
  | none => ([], this)
  | some h =>
    let this := { this with Calls := this.Calls ++ [SysCall.ReadFile h numBytes] }
    match os.ReadFile h numBytes with
    | none => ([], this)
    | some bytes => ((bytes.take numBytes).takeWhile (fun c => c != Char.ofNat 0), this)

end Bifrost

/-! ## Evaluation (`CalculatorForm::SendButton_Click`) -/

/-- The number routines of the managed runtime that the send handler calls, over the
runtime's type of doubles: `Convert::ToDouble`, `Math::Floor`, `==` on doubles,
`ToString("F0")`, `ToString("F6")` and `Int32::TryParse`. -/
structure Runtime (Double : Type) where
  ToDouble : Str → Except Exception Double
  Floor : Double → Double
  Equals : Double → Double → Bool
  ToStringF0 : Double → Str
  ToStringF6 : Double → Str
  Int32TryParse : Str → Option Int

/-- The ways an evaluation fails, with the message box the handler shows for each:
the port could not be opened, the write was rejected, or the device answered with the
sentinel (`text` is the part of the message taken from the response). -/
inductive EvalError where
  | ChannelUnavailable
  | WriteFailed
  | SyntaxError (text : Str)
  deriving DecidableEq, Repr

/-- What one run of the send handler leaves behind: the form, the bridge with the system
calls it made, and the outcome (the result text on success). -/
structure SendResult where
  form : CalculatorForm
  bridge : Bifrost
  outcome : Except EvalError Str

/-- The constant `CBR_9600`. -/
def CBR_9600 : Int := 9600

/-- The budget of bytes of one read (CalculatorForm.cpp:145). -/
def readBudget : Nat := 200

namespace CalculatorForm

/-- The method `GetTargetBaudrate` (CalculatorForm.h:51). -/
def GetTargetBaudrate {Double : Type} (rt : Runtime Double) (this : CalculatorForm) : Int :=
  match rt.Int32TryParse this.BaudRateTextBox with
  | some baud => baud
  | none => CBR_9600

/-- The call `MessageBox::Show(msg, "Error", ...)`. -/
def ShowError (this : CalculatorForm) (msg : String) (tail : Str) : CalculatorForm :=
  { this with MessageBoxes := this.MessageBoxes ++ [msg.toList ++ tail] }

/-- The handler `SendButton_Click` (CalculatorForm.cpp:106). -/
def SendButton_Click {Double : Type} (rt : Runtime Double) (os : Win32)
    (form : CalculatorForm) : Except Exception SendResult :=
  -- line 109
  let this : CalculatorForm := { form with SendButtonEnabled := false }
  -- lines 114-117; marshalling to the native string keeps the characters
  let expressionManaged : Str := ToLower (Trim this.GetCurrentExpression)
  let expression : Str := expressionManaged
  -- lines 120-124
  let bridge : Bifrost := Bifrost.new
  let targetCom : Str := this.GetTargetCom
  -- lines 127-133; the `int` baud rate is passed as a `DWORD`
  let (opened, bridge) :=
    bridge.Open os targetCom ((this.GetTargetBaudrate rt) % 2 ^ 32).toNat
  if ¬ opened then
    let this := this.ShowError "Failed to open serial port." []
    pure
      { form := { this with SendButtonEnabled := true }
        bridge := bridge
        outcome := Except.error EvalError.ChannelUnavailable }
  else
    -- lines 136-143
    let (written, bridge) := bridge.WriteData os (expression ++ ['\n'])
    if ¬ written then
      let this := this.ShowError "Failed to write to serial port." []
      let bridge := bridge.Close
      pure
        { form := { this with SendButtonEnabled := true }
          bridge := bridge
          outcome := Except.error EvalError.WriteFailed }
    else
      -- lines 145-149
      let (response, bridge) := bridge.ReadData os readBudget
      let bridge := bridge.Close
      let responseManaged : Str := response
      -- lines 153-160
      if Contains (ToLower responseManaged) nan then
        let stripped : Str := Replace responseManaged nan []
        let this := this.ShowError
          "SYNTAX ERROR: \nThe microcontroller couln't manage that expression. \n" stripped
        pure
          { form := { this with SendButtonEnabled := true }
            bridge := bridge
            outcome := Except.error (EvalError.SyntaxError stripped) }
      else do
        -- line 162
        let finalResponse : Str := Trim responseManaged
        -- lines 164-182: only a `FormatException` is caught
        let finalResponse ←
          (match rt.ToDouble finalResponse with
          | Except.ok resultValue =>
            if rt.Equals resultValue (rt.Floor resultValue) then
              pure (rt.ToStringF0 resultValue)
            else pure (rt.ToStringF6 resultValue)
          | Except.error Exception.Format => pure finalResponse
          | Except.error e => throw e : Except Exception Str)
        -- line 184
        let this := { this with LastResult := finalResponse }
        -- lines 187-191
        let fullOperation : Str := this.GetCurrentExpression ++ [' ', '=', ' '] ++ finalResponse
        let this := { this with OperationsListBox := fullOperation :: this.OperationsListBox }
        -- lines 195-197
        let this := { this with InputTextBox := this.InputTextBox.setText [] }
        let this ← this.SetCaretPos this.InputTextBox.Text.length true
        -- line 199
        pure
          { form := { this with SendButtonEnabled := true }
            bridge := bridge
            outcome := Except.ok finalResponse }

/-- The form as the constructor and the load handler leave it
(CalculatorForm.h:75, CalculatorForm.h:104, and the texts set in `InitializeComponent`). -/
def initial : CalculatorForm :=
  { InputTextBox := { Text := [], SelectionStart := 0, SelectionLength := 0 }
    LastResult := []
    OperationsListBox := []
    ComTextBox := ['C', 'O', 'M', '4']
    BaudRateTextBox := ['9', '6', '0', '0']
    SendButtonEnabled := true
    InputFocused := false
    DebugOutput := []
    MessageBoxes := [] }

/-- The form with the given buffer and last result, everything else as in `initial`. -/
def withBuffer (text : Str) (caret selection : Nat) (lastResult : Str) : CalculatorForm :=
  { initial with
    InputTextBox := { Text := text, SelectionStart := caret, SelectionLength := selection }
    LastResult := lastResult }

end CalculatorForm

/-! ## Sequences of events -/

/-- The events that reach the handlers: a click on a token button, on the delete button, on
the clear button, a caret request, the selection of the history item at an index, and a
click on the send button, with the system and device that this evaluation meets. -/
inductive Event where
  | Insert (btn : Button)
  | Delete
  | Clear
  | SetCaret (pos : Int) (focus : Bool)
  | SelectHistory (index : Nat)
  | Evaluate (os : Win32)

namespace CalculatorForm

/-- The handler that an event reaches, run on the form.  The selected item of the list box
is the item at the index, and none when there is no such item. -/
def handle {Double : Type} (rt : Runtime Double) (this : CalculatorForm) :
    Event → Except Exception CalculatorForm
  | Event.Insert btn => this.CalculatorButton_Click btn
  | Event.Delete => this.DelButton_Click
  | Event.Clear => pure this.ClearButton_Click
  | Event.SetCaret pos focus => this.SetCaretPos pos focus
  | Event.SelectHistory index =>
    this.OperationsListBox_SelectedIndexChanged (this.OperationsListBox.get? index)
  | Event.Evaluate os => do
    let r ← this.SendButton_Click rt os
    pure r.form

/-- The events of a list handled one after the other; an exception that a handler raises
ends the run. -/
def run {Double : Type} (rt : Runtime Double) (this : CalculatorForm) :
    List Event → Except Exception CalculatorForm
  | [] => pure this
  | e :: es => do
    let this ← this.handle rt e
    this.run rt es

end CalculatorForm

/-! ## The text box and the focus

The text box keeps a flag, `selectionSet`.  The setter of `Text` clears it and the setter of
`SelectionStart` sets it; the setter of `SelectedText` leaves it alone.  When the text box
gets the focus while the flag is clear, it sets the flag and, when nothing is selected,
selects its whole text.  A button that is clicked takes the focus, so the call
`InputTextBox->Focus()` that ends a click handler gives the focus back to the text box.
The definitions below are the token handler with this flag carried along. -/

/-- The form together with the flag `selectionSet` of its text box. -/
structure FocusForm where
  form : CalculatorForm
  selectionSet : Bool
  deriving DecidableEq, Repr

namespace FocusForm

/-- Setter of `InputTextBox->Text`: the text is replaced and the flag is cleared. -/
def setText (this : FocusForm) (value : Str) : FocusForm :=
  { form := { this.form with InputTextBox := this.form.InputTextBox.setText value }
    selectionSet := false }

/-- Setter of `InputTextBox->SelectedText`: the selection is replaced; the flag stays. -/
def setSelectedText (this : FocusForm) (value : Str) : FocusForm :=
  { this with
    form := { this.form with InputTextBox := this.form.InputTextBox.setSelectedText value } }

/-- Setter of `InputTextBox->SelectionStart`: the caret is moved and the flag is set. -/
def setSelectionStart (this : FocusForm) (value : Int) : Except Exception FocusForm := do
  let tb ← this.form.InputTextBox.setSelectionStart value
  pure { form := { this.form with InputTextBox := tb }, selectionSet := true }

/-- The text box gets the focus (`OnGotFocus`), with no mouse button held down: on the first
focus since the flag was cleared the flag is set, and the whole text is selected when
nothing is selected. -/
def OnGotFocus (this : FocusForm) : FocusForm :=
  if this.selectionSet then this
  else if this.form.InputTextBox.SelectionLength = 0 then
    { form := { this.form with
        InputTextBox :=
          { Text := this.form.InputTextBox.Text
            SelectionStart := 0
            SelectionLength := this.form.InputTextBox.Text.length } }
      selectionSet := true }
  else { this with selectionSet := true }

/-- The call `InputTextBox->Focus()` in the click handler of a button: the button holds the
focus, so the text box gets it. -/
def Focus (this : FocusForm) : FocusForm :=
  let this := this.OnGotFocus
  { this with form := this.form.Focus }

/-- The method `SetCaretPos` (CalculatorForm.h:114). -/
def SetCaretPos (this : FocusForm) (newIndex : Int) (focus : Bool) :
    Except Exception FocusForm :=
  if newIndex < 0 then
    pure { this with
      form := { this.form with
        DebugOutput := this.form.DebugOutput ++
          [("Caret less than 0: " ++ toString newIndex).toList] } }
  else do
    let this ← this.setSelectionStart newIndex
    pure (if focus then this.Focus else this)

/-- Lines 27-29 of `CalculatorButton_Click`. -/
def ClearIfNan (this : FocusForm) : FocusForm :=
  if Contains (ToLower this.form.InputTextBox.Text) nan then this.setText [] else this

/-- Lines 50-63 of `CalculatorButton_Click`. -/
def LeftOperand (this : FocusForm) (cachedCaretPos : Int) (textToInstert : Str) :
    Except Exception (Str × FocusForm) :=
  if IndexOf MathOperators (ToLower textToInstert) ≠ -1 then
    if IsNullOrEmpty this.form.InputTextBox.Text then do
      let textToInstert ←
        (if IsNullOrEmpty this.form.LastResult then Insert textToInstert 0 ['0']
         else Insert textToInstert 0 this.form.LastResult)
      let this ← this.SetCaretPos (cachedCaretPos + textToInstert.length) false
      pure (textToInstert, this)
    else pure (textToInstert, this)
  else pure (textToInstert, this)

/-- Lines 71-86 of `CalculatorButton_Click`. -/
def InsertText (this : FocusForm) (textToInstert : Str) :
    Except Exception (Str × FocusForm) :=
  if IndexOf MathFunctions (ToLower textToInstert) ≠ -1 then do
    let textToInstert := textToInstert ++ ['(', ')']
    let this := this.setSelectedText textToInstert
    let this ← this.SetCaretPos ((this.form.InputTextBox.SelectionStart : Int) - 1) false
    pure (textToInstert, this)
  else do
    let this := this.setSelectedText textToInstert
    if textToInstert = ['(', ')'] then do
      let this ← this.SetCaretPos ((this.form.InputTextBox.SelectionStart : Int) - 1) false
      pure (textToInstert, this)
    else pure (textToInstert, this)

/-- Lines 89-96 of `CalculatorButton_Click`. -/
def AdjustCaret (this : FocusForm) (isPiButton : Bool) (cachedCaretPos : Int)
    (textToInstert : Str) : Except Exception FocusForm :=
  if 0 < this.form.InputTextBox.Text.length ∧ this.form.InputTextBox.Text.length < 2 then
    this.SetCaretPos 1 false
  else if isPiButton then
    this.SetCaretPos (cachedCaretPos + textToInstert.length) false
  else pure this

/-- The handler `CalculatorButton_Click` (CalculatorForm.cpp:20), for a sender that is a
button, with the flag of the text box carried along. -/
def CalculatorButton_Click (this : FocusForm) (btn : Button) : Except Exception FocusForm :=
  -- lines 27-29
  let this : FocusForm := this.ClearIfNan
  -- line 32
  let cachedCaretPos : Int := this.form.GetCaretPos
  -- lines 35-47
  match this.form.TextToInsert btn with
  | none => pure this
  | some textToInstert => do
    -- lines 50-63
    let (textToInstert, this) ← this.LeftOperand cachedCaretPos textToInstert
    -- lines 66-68
    let isPiButton : Bool := btn = Button.PiButton
    let textToInstert : Str :=
      if isPiButton then ['3', '.', '1', '4', '1', '5', '9', '3'] else textToInstert
    -- lines 71-86
    let (textToInstert, this) ← this.InsertText textToInstert
    -- lines 89-96
    let this ← this.AdjustCaret isPiButton cachedCaretPos textToInstert
    -- line 99
    pure this.Focus

/-- The method `ClearInput` (CalculatorForm.cpp:226), called by the handler of the clear
button. -/
def ClearInput (this : FocusForm) : FocusForm :=
  let this := this.setText []
  { this with form := { this.form with OperationsListBox := [] } }

end FocusForm

/-! ## A device and a runtime to run the handlers on

The theorems about `SendButton_Click` hold for every `Win32` and every `Runtime`.
The instances below serve to run the handler on concrete responses. -/

/-- A port that opens with handle `1` and accepts every setting and every write; each
read gives `response`. -/
def deviceAnswering (response : Str) : Win32 :=
  { CreateFileW := fun _ => some 1
    GetCommState := fun _ => true
    SetCommState := fun _ _ => true
    SetCommTimeouts := fun _ => true
    WriteFile := fun _ _ => true
    ReadFile := fun _ _ => some response }

/-- A port that opens with handle `1` and accepts every setting, but rejects every write. -/
def deviceRejectingWrites : Win32 :=
  { CreateFileW := fun _ => some 1
    GetCommState := fun _ => true
    SetCommState := fun _ _ => true
    SetCommTimeouts := fun _ => true
    WriteFile := fun _ _ => false
    ReadFile := fun _ _ => none }

/-- A system on which no port can be opened. -/
def noPort : Win32 :=
  { CreateFileW := fun _ => none
    GetCommState := fun _ => false
    SetCommState := fun _ _ => false
    SetCommTimeouts := fun _ => false
    WriteFile := fun _ _ => false
    ReadFile := fun _ _ => none }

/-- A number with finitely many decimals, `mantissa / 10 ^ scale`. -/
structure DecimalValue where
  mantissa : Int
  scale : Nat
  deriving DecidableEq, Repr

namespace DecimalValue

/-- The value of a string of decimal digits. -/
def ofDigits (s : Str) : Nat := s.foldl (fun n c => 10 * n + (c.toNat - 48)) 0

/-- Reads `[sign] digits [. digits]` between white space; anything else is a format
error. -/
def parse (s : Str) : Except Exception DecimalValue :=
  let s := Trim s
  let (negative, body) : Bool × Str :=
    match s with
    | '-' :: rest => (true, rest)
    | '+' :: rest => (false, rest)
    | rest => (false, rest)
  let whole := body.takeWhile Char.isDigit
  let fraction : Option Str :=
    match body.dropWhile Char.isDigit with
    | [] => some []
    | '.' :: rest => if rest.all Char.isDigit then some rest else none
    | _ => none
  match fraction with
  | none => throw Exception.Format
  | some fraction =>
    if whole ++ fraction = [] then throw Exception.Format
    else
      let n : Int := ofDigits (whole ++ fraction)
      pure { mantissa := if negative then -n else n, scale := fraction.length }

/-- The largest whole number not above the value. -/
def floor (x : DecimalValue) : DecimalValue :=
  { mantissa := x.mantissa / (10 : Int) ^ x.scale, scale := 0 }

/-- Equality of the values. -/
def equals (x y : DecimalValue) : Bool :=
  x.mantissa * (10 : Int) ^ y.scale == y.mantissa * (10 : Int) ^ x.scale

/-- Fixed-point text with `places` decimals, rounded half away from zero. -/
def toFixed (places : Nat) (x : DecimalValue) : Str :=
  let scaled : Nat := (2 * x.mantissa.natAbs * 10 ^ places + 10 ^ x.scale) / (2 * 10 ^ x.scale)
  let whole := Nat.toDigits 10 (scaled / 10 ^ places)
  let digits := Nat.toDigits 10 (scaled % 10 ^ places)
  let sign : Str := if x.mantissa < 0 ∧ scaled ≠ 0 then ['-'] else []
  if places = 0 then sign ++ whole
  else sign ++ whole ++ ['.'] ++ List.replicate (places - digits.length) '0' ++ digits

/-- Reads `[sign] digits` between white space as a 32-bit integer. -/
def tryParseInt32 (s : Str) : Option Int :=
  match parse s with
  | Except.ok x =>
    if x.scale = 0 ∧ -(2 : Int) ^ 31 ≤ x.mantissa ∧ x.mantissa < (2 : Int) ^ 31 then
      some x.mantissa
    else none
  | Except.error _ => none

end DecimalValue

/-- The number routines over exact decimals: they agree with the runtime's doubles on
short decimal literals, where no rounding takes place. -/
def decimalRuntime : Runtime DecimalValue :=
  { ToDouble := DecimalValue.parse
    Floor := DecimalValue.floor
    Equals := DecimalValue.equals
    ToStringF0 := DecimalValue.toFixed 0
    ToStringF6 := DecimalValue.toFixed 6
    Int32TryParse := DecimalValue.tryParseInt32 }

open CalculatorForm

/-! # Theorems -/

/-! ## Strings and arrays -/

theorem IndexOf_ne_neg_one (arr : List Str) (x : Str) : IndexOf arr x ≠ -1 ↔ x ∈ arr := by
  unfold IndexOf
  by_cases h : x ∈ arr
  · simp only [h, if_true, iff_true]
    intro h2
    have : (0 : Int) ≤ (List.indexOf x arr : Nat) := Int.ofNat_nonneg _
    omega
  · simp [h]

theorem ToLower_append (a b : Str) : ToLower (a ++ b) = ToLower a ++ ToLower b := by
  simp [ToLower]

theorem ToLower_operator (op : Str) (h : op ∈ MathOperators) : ToLower op = op := by
  have h2 : ∀ op ∈ MathOperators, ToLower op = op := by decide
  exact h2 op h

theorem getLast_operator_function (f op : Str) (hf : f ∈ MathFunctions)
    (hop : op ∈ MathOperators) : f.getLast? ≠ op.getLast? := by
  have h : ∀ f ∈ MathFunctions, ∀ op ∈ MathOperators, f.getLast? ≠ op.getLast? := by decide
  exact h f hf op hop

theorem operator_tail_not_function (r op : Str) (hop : ToLower op ∈ MathOperators) :
    ToLower (r ++ op) ∉ MathFunctions := by
  intro hf
  apply getLast_operator_function _ _ hf hop
  have hne : ToLower op ≠ [] := by
    intro h
    rw [h] at hop
    revert hop
    decide
  rw [ToLower_append, List.getLast?_append_of_ne_nil _ hne]

theorem operator_tail_ne_parens_lower (r op : Str) (hop : ToLower op ∈ MathOperators) :
    r ++ op ≠ ['(', ')'] := by
  intro h
  have hne : ToLower op ≠ [] := by
    intro h
    rw [h] at hop
    revert hop
    decide
  have h1 := congrArg (fun x => (ToLower x).getLast?) h
  simp only [ToLower_append] at h1
  rw [List.getLast?_append_of_ne_nil _ hne] at h1
  have h2 : ∀ op ∈ MathOperators, op.getLast? ≠ (ToLower ['(', ')']).getLast? := by decide
  exact h2 _ hop h1

theorem function_not_operator (f : Str) (hf : f ∈ MathFunctions) : f ∉ MathOperators := by
  have h : ∀ f ∈ MathFunctions, f ∉ MathOperators := by decide
  exact h f hf

theorem drop_before_paren (pre f rest : Str) (n : Nat) (hn : n = pre.length + f.length + 1) :
    (pre ++ (f ++ '(' :: ')' :: rest)).drop n = ')' :: rest := by
  have h : pre ++ (f ++ '(' :: ')' :: rest) = (pre ++ f ++ ['(']) ++ (')' :: rest) := by simp
  rw [h]
  apply List.drop_left'
  simp [hn]
  omega

/-! ## The caret -/

theorem SetCaretPos_neg (this : CalculatorForm) (newIndex : Int) (focus : Bool)
    (h : newIndex < 0) :
    this.SetCaretPos newIndex focus = Except.ok { this with
      DebugOutput := this.DebugOutput ++
        [("Caret less than 0: " ++ toString newIndex).toList] } := by
  simp [SetCaretPos, h, pure, Except.pure]

theorem SetCaretPos_nonneg (this : CalculatorForm) (newIndex : Int) (focus : Bool)
    (h : 0 ≤ newIndex) :
    this.SetCaretPos newIndex focus = Except.ok
      { this with
        InputTextBox :=
          { Text := this.InputTextBox.Text
            SelectionStart := min newIndex.toNat this.InputTextBox.Text.length
            SelectionLength :=
              min this.InputTextBox.SelectionLength
                (this.InputTextBox.Text.length - newIndex.toNat) }
        InputFocused := focus || this.InputFocused } := by
  unfold SetCaretPos TextBox.setSelectionStart
  have h1 : ¬ newIndex < 0 := by omega
  simp only [h1, if_false]
  by_cases h2 : this.InputTextBox.Text.length < newIndex.toNat
  · cases focus <;> simp [h2, bind, Except.bind, pure, Except.pure, Focus] <;> omega
  · cases focus <;> simp [h2, bind, Except.bind, pure, Except.pure, Focus] <;> omega

/-! ## The blocks of `CalculatorButton_Click` -/

theorem ClearIfNan_of_nan (this : CalculatorForm)
    (h : Contains (ToLower this.InputTextBox.Text) nan = true) :
    this.ClearIfNan = { this with
      InputTextBox := { Text := [], SelectionStart := 0, SelectionLength := 0 } } := by
  simp [ClearIfNan, h, TextBox.setText]

theorem ClearIfNan_of_not_nan (this : CalculatorForm)
    (h : Contains (ToLower this.InputTextBox.Text) nan = false) :
    this.ClearIfNan = this := by
  simp [ClearIfNan, h]

theorem LeftOperand_empty (this : CalculatorForm) (cachedCaretPos : Int) (t : Str)
    (hop : ToLower t ∈ MathOperators) (hempty : this.InputTextBox.Text = [])
    (hc : 0 ≤ cachedCaretPos) :
    this.LeftOperand cachedCaretPos t = Except.ok
      ((if this.LastResult = [] then ['0'] else this.LastResult) ++ t,
       { this with InputTextBox := { Text := [], SelectionStart := 0, SelectionLength := 0 } }) := by
  unfold LeftOperand
  by_cases hl : this.LastResult = []
  · simp (disch := omega) [SetCaretPos_nonneg, IndexOf_ne_neg_one, hop, hempty, hl,
      IsNullOrEmpty, Insert, bind, Except.bind, pure, Except.pure]
  · simp (disch := omega) [SetCaretPos_nonneg, IndexOf_ne_neg_one, hop, hempty, hl,
      IsNullOrEmpty, Insert, bind, Except.bind, pure, Except.pure]

theorem LeftOperand_other (this : CalculatorForm) (cachedCaretPos : Int) (t : Str)
    (h : ToLower t ∉ MathOperators ∨ this.InputTextBox.Text ≠ []) :
    this.LeftOperand cachedCaretPos t = Except.ok (t, this) := by
  unfold LeftOperand
  rcases h with h | h
  · simp [IndexOf_ne_neg_one, h, pure, Except.pure]
  · simp [IndexOf_ne_neg_one, h, IsNullOrEmpty, pure, Except.pure]

theorem InsertText_function (this : CalculatorForm) (t : Str)
    (hf : ToLower t ∈ MathFunctions) (hb : this.InputTextBox.InBounds) :
    this.InsertText t = Except.ok
      (t ++ ['(', ')'],
       { this with InputTextBox :=
          { Text := this.InputTextBox.Text.take this.InputTextBox.SelectionStart ++
              (t ++ ['(', ')']) ++
              this.InputTextBox.Text.drop
                (this.InputTextBox.SelectionStart + this.InputTextBox.SelectionLength)
            SelectionStart := this.InputTextBox.SelectionStart + t.length + 1
            SelectionLength := 0 } }) := by
  unfold InsertText
  simp only [TextBox.InBounds] at hb
  simp (disch := omega) [SetCaretPos_nonneg, IndexOf_ne_neg_one, hf, TextBox.setSelectedText,
    bind, Except.bind, pure, Except.pure]
  omega

theorem InsertText_parens (this : CalculatorForm) (hb : this.InputTextBox.InBounds) :
    this.InsertText ['(', ')'] = Except.ok
      (['(', ')'],
       { this with InputTextBox :=
          { Text := this.InputTextBox.Text.take this.InputTextBox.SelectionStart ++
              ['(', ')'] ++
              this.InputTextBox.Text.drop
                (this.InputTextBox.SelectionStart + this.InputTextBox.SelectionLength)
            SelectionStart := this.InputTextBox.SelectionStart + 1
            SelectionLength := 0 } }) := by
  unfold InsertText
  simp only [TextBox.InBounds] at hb
  have hf : ToLower ['(', ')'] ∉ MathFunctions := by decide
  simp (disch := omega) [SetCaretPos_nonneg, IndexOf_ne_neg_one, hf, TextBox.setSelectedText,
    bind, Except.bind, pure, Except.pure]
  omega

theorem InsertText_plain (this : CalculatorForm) (t : Str)
    (hf : ToLower t ∉ MathFunctions) (hp : t ≠ ['(', ')']) :
    this.InsertText t = Except.ok
      (t,
       { this with InputTextBox :=
          { Text := this.InputTextBox.Text.take this.InputTextBox.SelectionStart ++ t ++
              this.InputTextBox.Text.drop
                (this.InputTextBox.SelectionStart + this.InputTextBox.SelectionLength)
            SelectionStart := this.InputTextBox.SelectionStart + t.length
            SelectionLength := 0 } }) := by
  unfold InsertText
  simp [IndexOf_ne_neg_one, hf, hp, TextBox.setSelectedText, bind, Except.bind, pure,
    Except.pure]

theorem AdjustCaret_ok (this : CalculatorForm) (isPiButton : Bool) (cachedCaretPos : Int)
    (t : Str) (hc : 0 ≤ cachedCaretPos) (hsel : this.InputTextBox.SelectionLength = 0) :
    this.AdjustCaret isPiButton cachedCaretPos t = Except.ok
      { this with InputTextBox :=
          { Text := this.InputTextBox.Text
            SelectionStart :=
              if this.InputTextBox.Text.length = 1 then 1
              else if isPiButton then
                min (cachedCaretPos + t.length).toNat this.InputTextBox.Text.length
              else this.InputTextBox.SelectionStart
            SelectionLength := 0 } } := by
  obtain ⟨⟨text, start, len⟩, lr, ops, com, baud, en, foc, dbg, msgs⟩ := this
  simp only at hsel
  subst hsel
  unfold AdjustCaret
  by_cases h1 : text.length = 1
  · simp (disch := omega) [SetCaretPos_nonneg, h1]
  · have h2 : ¬ (0 < text.length ∧ text.length < 2) := by omega
    cases isPiButton
    · simp [h1, h2, pure, Except.pure]
    · simp (disch := omega) [SetCaretPos_nonneg, h1, h2]

/-! ## The bridge -/

theorem Open_false (os : Win32) (port : Str) (baudrate : Nat)
    (h : (Bifrost.new.Open os port baudrate).1 = false) :
    (Bifrost.new.Open os port baudrate).2.hSerial = none ∧
    ∀ c ∈ (Bifrost.new.Open os port baudrate).2.Calls,
      (∀ h d, c ≠ SysCall.WriteFile h d) ∧ (∀ h n, c ≠ SysCall.ReadFile h n) := by
  unfold Bifrost.Open at h ⊢
  simp only [Bifrost.new, List.nil_append] at h ⊢
  cases hc : os.CreateFileW port with
  | none => simp
  | some hd =>
    simp only [hc] at h ⊢
    by_cases h1 : os.GetCommState hd = true
    · by_cases h2 : os.SetCommState hd baudrate = true
      · by_cases h3 : os.SetCommTimeouts hd = true
        · simp [h1, h2, h3] at h
        · simp [h1, h2, h3, Bifrost.Close]
      · simp [h1, h2, Bifrost.Close]
    · simp [h1, Bifrost.Close]

/-! ## Inserting a token (`CalculatorButton_Click`) -/

/-- C2: an operator button clicked on an empty buffer, with no last result, leaves the
buffer `"0"` followed by the operator, the caret at its end (position 2) and nothing
selected.  The operator comes from a button captioned with it, or from the power button,
which stands for `"^"`. -/
theorem operator_on_empty_buffer_takes_zero (form : CalculatorForm) (btn : Button) (op : Str)
    (hop : op ∈ MathOperators)
    (hbtn : btn = Button.other op ∨ (btn = Button.PowButton ∧ op = ['^']))
    (hempty : form.InputTextBox.Text = [])
    (hlast : form.LastResult = []) :
    ∃ s, form.CalculatorButton_Click btn = Except.ok s ∧
      s.InputTextBox.Text = '0' :: op ∧
      s.InputTextBox.SelectionStart = 2 ∧
      s.InputTextBox.SelectionStart = s.InputTextBox.Text.length ∧
      s.InputTextBox.SelectionLength = 0 := by
  have hlow : ToLower op ∈ MathOperators := by rw [ToLower_operator op hop]; exact hop
  have hnan : Contains (ToLower form.InputTextBox.Text) nan = false := by
    rw [hempty]; decide
  have htext : form.TextToInsert btn = some op := by
    rcases hbtn with hb | ⟨hb, hp⟩
    · subst hb; simp [TextToInsert, Button.Text]
    · subst hb hp; simp [TextToInsert]
  have hpi : (decide (btn = Button.PiButton)) = false := by
    rcases hbtn with hb | ⟨hb, hp⟩ <;> subst hb <;> simp
  have hlen : op.length = 1 := by
    have h : ∀ op ∈ MathOperators, op.length = 1 := by decide
    exact h op hop
  have hone : ¬ (([] : Str).take 0 ++ (['0'] ++ op) ++ ([] : Str).drop (0 + 0)).length = 1 := by
    simp only [List.take_nil, List.drop_nil, List.nil_append, List.append_nil,
      List.length_append, List.length_cons, List.length_nil]
    omega
  unfold CalculatorButton_Click
  rw [ClearIfNan_of_not_nan _ hnan]
  simp only [htext, hpi, Bool.false_eq_true, if_false]
  rw [LeftOperand_empty _ _ _ hlow hempty (by simp [GetCaretPos])]
  simp only [bind, Except.bind, hlast, if_true]
  rw [InsertText_plain _ _ (operator_tail_not_function _ _ hlow)
    (operator_tail_ne_parens_lower _ _ hlow)]
  simp only []
  rw [AdjustCaret_ok _ _ _ _ (by simp [GetCaretPos]) rfl]
  simp only [hone, if_false, Bool.false_eq_true]
  exact ⟨_, rfl, by simp [Focus], by simp [Focus, hlen], by simp [Focus], rfl⟩

/-- C2 at `"+"` on the form as it is after loading: the buffer becomes `"0+"` with the
caret at 2. -/
theorem operator_on_empty_buffer_takes_zero_witness :
    ∃ s, initial.CalculatorButton_Click (Button.other ['+']) = Except.ok s ∧
      s.InputTextBox.Text = ['0', '+'] ∧
      s.InputTextBox.SelectionStart = 2 ∧
      s.InputTextBox.SelectionStart = s.InputTextBox.Text.length ∧
      s.InputTextBox.SelectionLength = 0 :=
  operator_on_empty_buffer_takes_zero initial (Button.other ['+']) ['+'] (by decide)
    (Or.inl rfl) rfl rfl

/-- C3: an operator button clicked on an empty buffer, with a last result `r` that is not
empty, leaves the buffer `r` followed by the operator, the caret at its end and nothing
selected. -/
theorem operator_on_empty_buffer_takes_last_result (form : CalculatorForm) (btn : Button)
    (op : Str)
    (hop : op ∈ MathOperators)
    (hbtn : btn = Button.other op ∨ (btn = Button.PowButton ∧ op = ['^']))
    (hempty : form.InputTextBox.Text = [])
    (hlast : form.LastResult ≠ []) :
    ∃ s, form.CalculatorButton_Click btn = Except.ok s ∧
      s.InputTextBox.Text = form.LastResult ++ op ∧
      s.InputTextBox.SelectionStart = s.InputTextBox.Text.length ∧
      s.InputTextBox.SelectionLength = 0 := by
  have hlow : ToLower op ∈ MathOperators := by rw [ToLower_operator op hop]; exact hop
  have hnan : Contains (ToLower form.InputTextBox.Text) nan = false := by
    rw [hempty]; decide
  have htext : form.TextToInsert btn = some op := by
    rcases hbtn with hb | ⟨hb, hp⟩
    · subst hb; simp [TextToInsert, Button.Text]
    · subst hb hp; simp [TextToInsert]
  have hpi : (decide (btn = Button.PiButton)) = false := by
    rcases hbtn with hb | ⟨hb, hp⟩ <;> subst hb <;> simp
  have hone : ¬ (([] : Str).take 0 ++ (form.LastResult ++ op) ++ ([] : Str).drop (0 + 0)).length
      = 1 := by
    have h1 : 0 < form.LastResult.length := List.length_pos.mpr hlast
    have h2 : op.length = 1 := by
      have h : ∀ op ∈ MathOperators, op.length = 1 := by decide
      exact h op hop
    simp only [List.take_nil, List.drop_nil, List.nil_append, List.append_nil,
      List.length_append]
    omega
  unfold CalculatorButton_Click
  rw [ClearIfNan_of_not_nan _ hnan]
  simp only [htext, hpi, Bool.false_eq_true, if_false]
  rw [LeftOperand_empty _ _ _ hlow hempty (by simp [GetCaretPos])]
  simp only [bind, Except.bind, hlast, if_false]
  rw [InsertText_plain _ _ (operator_tail_not_function _ _ hlow)
    (operator_tail_ne_parens_lower _ _ hlow)]
  simp only []
  rw [AdjustCaret_ok _ _ _ _ (by simp [GetCaretPos]) rfl]
  simp only [hone, if_false, Bool.false_eq_true]
  exact ⟨_, rfl, by simp [Focus], by simp [Focus], rfl⟩

/-- C3 at `"+"` with last result `"42"`: the buffer becomes `"42+"`, the caret at its end. -/
theorem operator_on_empty_buffer_takes_last_result_witness :
    ∃ s, (withBuffer [] 0 0 ['4', '2']).CalculatorButton_Click (Button.other ['+']) =
        Except.ok s ∧
      s.InputTextBox.Text = ['4', '2', '+'] ∧
      s.InputTextBox.SelectionStart = s.InputTextBox.Text.length ∧
      s.InputTextBox.SelectionLength = 0 :=
  operator_on_empty_buffer_takes_last_result (withBuffer [] 0 0 ['4', '2'])
    (Button.other ['+']) ['+'] (by decide) (Or.inl rfl) rfl (by decide)

/-- C4, as stated, fails: on the buffer `"12"` with the caret at 0 the square-root button
gives `"sqrt()12"`, which does not end with `"sqrt()"`. -/
theorem function_inserted_not_at_end :
    ∃ s, (withBuffer ['1', '2'] 0 0 []).CalculatorButton_Click Button.SqrtButton =
        Except.ok s ∧
      s.InputTextBox.Text = ['s', 'q', 'r', 't', '(', ')', '1', '2'] ∧
      ¬ (['s', 'q', 'r', 't', '(', ')'] <:+ s.InputTextBox.Text) :=
  ⟨_, rfl, rfl, by decide⟩

/-- C4, amended: a function token `f` (a button captioned with a function name in any letter
case, or the square-root button, which stands for `"sqrt"`) replaces the selection by `f`
followed by `"()"`: the text becomes `pre ++ f ++ "()" ++ post`, where `pre` and `post` are
the parts of the old text before and after the selection (both empty when the old text
showed the sentinel and was cleared), and the caret stands right before the closing
parenthesis. -/
theorem function_inserted_at_caret (form : CalculatorForm) (btn : Button) (f pre post : Str)
    (hf : ToLower f ∈ MathFunctions)
    (hbtn : btn = Button.other f ∨ (btn = Button.SqrtButton ∧ f = ['s', 'q', 'r', 't']))
    (hbounds : form.InputTextBox.InBounds)
    (hpre : pre = if Contains (ToLower form.InputTextBox.Text) nan then []
      else form.InputTextBox.Text.take form.InputTextBox.SelectionStart)
    (hpost : post = if Contains (ToLower form.InputTextBox.Text) nan then []
      else form.InputTextBox.Text.drop
        (form.InputTextBox.SelectionStart + form.InputTextBox.SelectionLength)) :
    ∃ s, form.CalculatorButton_Click btn = Except.ok s ∧
      s.InputTextBox.Text = pre ++ (f ++ ['(', ')']) ++ post ∧
      s.InputTextBox.SelectionStart = pre.length + f.length + 1 ∧
      s.InputTextBox.SelectionLength = 0 ∧
      s.InputTextBox.Text.drop s.InputTextBox.SelectionStart = ')' :: post := by
  have hnop := function_not_operator _ hf
  have htext : form.ClearIfNan.TextToInsert btn = some f := by
    rcases hbtn with hb | ⟨hb, hp⟩
    · subst hb; simp [TextToInsert, Button.Text]
    · subst hb hp; simp [TextToInsert]
  have hpi : (decide (btn = Button.PiButton)) = false := by
    rcases hbtn with hb | ⟨hb, hp⟩ <;> subst hb <;> simp
  have hb2 : form.ClearIfNan.InputTextBox.InBounds := by
    unfold ClearIfNan
    split
    · simp [TextBox.InBounds, TextBox.setText]
    · exact hbounds
  have hlen : (form.ClearIfNan.InputTextBox.Text.take form.ClearIfNan.InputTextBox.SelectionStart).length
      = form.ClearIfNan.InputTextBox.SelectionStart := by
    simp only [TextBox.InBounds] at hb2
    rw [List.length_take_of_le (by omega)]
  have hpre2 : pre = form.ClearIfNan.InputTextBox.Text.take
      form.ClearIfNan.InputTextBox.SelectionStart := by
    rw [hpre]; unfold ClearIfNan; split <;> simp [TextBox.setText]
  have hpost2 : post = form.ClearIfNan.InputTextBox.Text.drop
      (form.ClearIfNan.InputTextBox.SelectionStart +
        form.ClearIfNan.InputTextBox.SelectionLength) := by
    rw [hpost]; unfold ClearIfNan; split <;> simp [TextBox.setText]
  unfold CalculatorButton_Click
  simp only [htext, hpi, LeftOperand_other _ _ _ (Or.inl hnop), bind, Except.bind,
    InsertText_function _ _ hf hb2, Bool.false_eq_true, if_false]
  rw [AdjustCaret_ok _ _ _ _ (by simp [GetCaretPos]) rfl]
  have hne : ¬ ((form.ClearIfNan.InputTextBox.Text.take
      form.ClearIfNan.InputTextBox.SelectionStart ++ (f ++ ['(', ')']) ++
      form.ClearIfNan.InputTextBox.Text.drop (form.ClearIfNan.InputTextBox.SelectionStart +
        form.ClearIfNan.InputTextBox.SelectionLength)).length = 1) := by
    simp only [List.length_append, List.length_cons, List.length_nil]
    omega
  refine ⟨_, rfl, ?_, ?_, rfl, ?_⟩
  · simp [Focus, hpre2, hpost2]
  · simp only [Focus, hne, if_false, Bool.false_eq_true, hpre2, hlen]
  · simp only [Focus, hne, if_false, Bool.false_eq_true]
    rw [hpost2]
    simp only [List.append_assoc, List.cons_append, List.nil_append]
    exact drop_before_paren _ f _ _ (by rw [hlen])

/-- C4, amended, at the square-root button on the buffer `"12"` with the caret at 0: the
text becomes `"sqrt()12"` and the caret stands at 5, before the closing parenthesis. -/
theorem function_inserted_at_caret_witness :
    ∃ s, (withBuffer ['1', '2'] 0 0 []).CalculatorButton_Click Button.SqrtButton =
        Except.ok s ∧
      s.InputTextBox.Text = [] ++ (['s', 'q', 'r', 't'] ++ ['(', ')']) ++ ['1', '2'] ∧
      s.InputTextBox.SelectionStart = 0 + 4 + 1 ∧
      s.InputTextBox.SelectionLength = 0 ∧
      s.InputTextBox.Text.drop s.InputTextBox.SelectionStart = ')' :: ['1', '2'] :=
  function_inserted_at_caret (withBuffer ['1', '2'] 0 0 []) Button.SqrtButton
    ['s', 'q', 'r', 't'] [] ['1', '2'] (by decide) (Or.inr ⟨rfl, rfl⟩) (by decide) (by decide)
    (by decide)

/-- C5, as stated, fails: on the buffer `"nan"` with no last result the `+` token leaves
`"0+"`, not the token text `"+"` alone. -/
theorem operator_into_nan_buffer_takes_zero :
    Contains (ToLower ['n', 'a', 'n']) nan = true ∧
    ∃ s, (withBuffer ['n', 'a', 'n'] 3 0 []).CalculatorButton_Click (Button.other ['+']) =
        Except.ok s ∧
      s.InputTextBox.Text = ['0', '+'] ∧ s.InputTextBox.Text ≠ ['+'] :=
  ⟨by decide, _, rfl, rfl, by decide⟩

/-- C5, amended: on a buffer whose text shows the sentinel in any letter case, the buffer is
cleared first, so the text after the click is what the insertion puts into an empty buffer:
the resolved text `r` alone when it is neither an operator nor a function name, `r` after
`"0"` (or after the last result, when there is one) when it is an operator, and `r` followed
by `"()"` when it is a function name. -/
theorem insert_into_nan_buffer (form : CalculatorForm) (btn : Button) (r : Str)
    (hnan : Contains (ToLower form.InputTextBox.Text) nan = true)
    (hr : r = match btn with
      | Button.SqrtButton => ['s', 'q', 'r', 't']
      | Button.PowButton => ['^']
      | Button.AnsButton => form.LastResult
      | Button.PiButton => ['3', '.', '1', '4', '1', '5', '9', '3']
      | Button.other t => t) :
    ∃ s, form.CalculatorButton_Click btn = Except.ok s ∧
      s.InputTextBox.Text =
        if ToLower r ∈ MathOperators then
          (if form.LastResult = [] then ['0'] else form.LastResult) ++ r
        else if ToLower r ∈ MathFunctions then r ++ ['(', ')']
        else r := by
  -- what the handler does with a text `t` that is not the pi literal, on the cleared buffer
  have key : ∀ t : Str, btn ≠ Button.PiButton → form.ClearIfNan.TextToInsert btn = some t →
      ∃ s, form.CalculatorButton_Click btn = Except.ok s ∧
        s.InputTextBox.Text =
          if ToLower t ∈ MathOperators then
            (if form.LastResult = [] then ['0'] else form.LastResult) ++ t
          else if ToLower t ∈ MathFunctions then t ++ ['(', ')']
          else t := by
    intro t hpi htext
    have hpi2 : (decide (btn = Button.PiButton)) = false := by simp [hpi]
    unfold CalculatorButton_Click
    simp only [htext, hpi2, Bool.false_eq_true, if_false]
    rw [ClearIfNan_of_nan _ hnan]
    by_cases hop : ToLower t ∈ MathOperators
    · rw [LeftOperand_empty _ _ _ hop rfl (by simp [GetCaretPos])]
      simp only [bind, Except.bind]
      rw [InsertText_plain _ _ (operator_tail_not_function _ _ hop)
        (operator_tail_ne_parens_lower _ _ hop)]
      simp only []
      rw [AdjustCaret_ok _ _ _ _ (by simp [GetCaretPos]) rfl]
      exact ⟨_, rfl, by simp [Focus, hop]⟩
    · rw [LeftOperand_other _ _ _ (Or.inl hop)]
      simp only [bind, Except.bind]
      by_cases hf : ToLower t ∈ MathFunctions
      · rw [InsertText_function _ _ hf (by simp [TextBox.InBounds])]
        simp only []
        rw [AdjustCaret_ok _ _ _ _ (by simp [GetCaretPos]) rfl]
        exact ⟨_, rfl, by simp [Focus, hop, hf]⟩
      · by_cases hp : t = ['(', ')']
        · subst hp
          rw [InsertText_parens _ (by simp [TextBox.InBounds])]
          simp only []
          rw [AdjustCaret_ok _ _ _ _ (by simp [GetCaretPos]) rfl]
          exact ⟨_, rfl, by simp [Focus, hop, hf]⟩
        · rw [InsertText_plain _ _ hf hp]
          simp only []
          rw [AdjustCaret_ok _ _ _ _ (by simp [GetCaretPos]) rfl]
          exact ⟨_, rfl, by simp [Focus, hop, hf]⟩
  subst hr
  cases btn with
  | SqrtButton => exact key _ (by decide) (by simp [TextToInsert])
  | PowButton => exact key _ (by decide) (by simp [TextToInsert])
  | AnsButton =>
    by_cases hl : form.LastResult = []
    · have h0 : form.ClearIfNan.TextToInsert Button.AnsButton = none := by
        simp [TextToInsert, ClearIfNan_of_nan _ hnan, IsNullOrEmpty, hl]
      have h1 : ToLower ([] : Str) ∉ MathOperators := by decide
      have h2 : ToLower ([] : Str) ∉ MathFunctions := by decide
      unfold CalculatorButton_Click
      simp only [h0]
      rw [ClearIfNan_of_nan _ hnan]
      exact ⟨_, rfl, by simp [hl, h1, h2]⟩
    · exact key _ (by decide)
        (by simp [TextToInsert, ClearIfNan_of_nan _ hnan, IsNullOrEmpty, hl])
  | PiButton =>
    have h0 : form.ClearIfNan.TextToInsert Button.PiButton = some ['π'] := by
      simp [TextToInsert, Button.Text]
    have h1 : ToLower ['π'] ∉ MathOperators := by decide
    have h2 : ToLower ['3', '.', '1', '4', '1', '5', '9', '3'] ∉ MathFunctions := by decide
    have h3 : ToLower ['3', '.', '1', '4', '1', '5', '9', '3'] ∉ MathOperators := by decide
    unfold CalculatorButton_Click
    simp only [h0, decide_True, if_true]
    rw [ClearIfNan_of_nan _ hnan, LeftOperand_other _ _ _ (Or.inl h1)]
    simp only [bind, Except.bind]
    rw [InsertText_plain _ _ h2 (by decide)]
    simp only []
    rw [AdjustCaret_ok _ _ _ _ (by simp [GetCaretPos]) rfl]
    exact ⟨_, rfl, by simp [Focus, h2, h3]⟩
  | other t => exact key _ (by simp) (by simp [TextToInsert, Button.Text])

/-- C5, amended, at the digit `7` on the buffer `"NaN1"`: the text becomes `"7"`. -/
theorem insert_into_nan_buffer_witness :
    ∃ s, (withBuffer ['N', 'a', 'N', '1'] 4 0 []).CalculatorButton_Click (Button.other ['7']) =
        Except.ok s ∧
      s.InputTextBox.Text = ['7'] :=
  insert_into_nan_buffer (withBuffer ['N', 'a', 'N', '1'] 4 0 []) (Button.other ['7']) ['7']
    (by decide) rfl

/-! ## Deleting (`DelButton_Click`) and the caret (`SetCaretPos`) -/

/-- C6: with nothing selected and the caret `c` within the text, the delete button removes
exactly the character at index `c - 1` and moves the caret to `c - 1` when `c > 0`, and
leaves text and caret as they are when `c = 0`. -/
theorem delete_removes_char_before_caret (form : CalculatorForm)
    (hsel : form.InputTextBox.SelectionLength = 0)
    (hbounds : form.InputTextBox.SelectionStart ≤ form.InputTextBox.Text.length) :
    ∃ s, form.DelButton_Click = Except.ok s ∧
      (0 < form.InputTextBox.SelectionStart →
        s.InputTextBox.Text =
          form.InputTextBox.Text.eraseIdx (form.InputTextBox.SelectionStart - 1) ∧
        s.InputTextBox.SelectionStart = form.InputTextBox.SelectionStart - 1) ∧
      (form.InputTextBox.SelectionStart = 0 →
        s.InputTextBox.Text = form.InputTextBox.Text ∧ s.InputTextBox.SelectionStart = 0) ∧
      s.InputTextBox.SelectionLength = 0 := by
  obtain ⟨⟨text, start, len⟩, lr, ops, com, baud, en, foc, dbg, msgs⟩ := form
  simp only at hsel hbounds
  subst hsel
  unfold DelButton_Click
  by_cases hc : 0 < start
  · have hpos : 0 < text.length := by omega
    have h1 : ((start : Int) - 1).toNat = start - 1 := by omega
    have h2 : start - 1 + 1 = start := by omega
    have h3 : ¬ (text.length < start) := by omega
    have h4 : ¬ (min (start - 1) text.length + (text.length - start) < start - 1) := by omega
    have h5 : ¬ ((start : Int) - 1 < 0) := by omega
    have h6 : ¬ ((text.length : Int) < (start : Int) - 1 + 1) := by omega
    simp [TextBox.SelectedText, IsNullOrEmpty, GetCaretPos, hc, hpos, Remove, h1, h2, h3, h4,
      h5, h6, TextBox.setText, TextBox.setSelectionStart, bind, Except.bind, pure, Except.pure, Focus,
      List.eraseIdx_eq_take_drop_succ]
    omega
  · have h0 : start = 0 := by omega
    subst h0
    simp [TextBox.SelectedText, IsNullOrEmpty, GetCaretPos, bind, Except.bind, pure,
      Except.pure, Focus]

/-- C6 on the buffer `"12"` with the caret at 2: one delete gives `"1"` with the caret at 1,
a second gives the empty buffer with the caret at 0, and a third changes nothing. -/
theorem delete_removes_char_before_caret_witness :
    ∃ s₁ s₂ s₃,
      (withBuffer ['1', '2'] 2 0 []).DelButton_Click = Except.ok s₁ ∧
      s₁.InputTextBox.Text = ['1'] ∧ s₁.InputTextBox.SelectionStart = 1 ∧
      s₁.DelButton_Click = Except.ok s₂ ∧
      s₂.InputTextBox.Text = [] ∧ s₂.InputTextBox.SelectionStart = 0 ∧
      s₂.DelButton_Click = Except.ok s₃ ∧
      s₃.InputTextBox.Text = [] ∧ s₃.InputTextBox.SelectionStart = 0 := by
  obtain ⟨s₁, e₁, p₁, -, l₁⟩ :=
    delete_removes_char_before_caret (withBuffer ['1', '2'] 2 0 []) rfl (by decide)
  obtain ⟨t₁, c₁⟩ := p₁ (by decide)
  have t₁ : s₁.InputTextBox.Text = ['1'] := t₁
  have c₁ : s₁.InputTextBox.SelectionStart = 1 := c₁
  obtain ⟨s₂, e₂, p₂, -, l₂⟩ :=
    delete_removes_char_before_caret s₁ l₁ (by rw [t₁, c₁]; decide)
  obtain ⟨t₂, c₂⟩ := p₂ (by rw [c₁]; decide)
  simp only [t₁, c₁] at t₂ c₂
  have t₂ : s₂.InputTextBox.Text = [] := t₂
  have c₂ : s₂.InputTextBox.SelectionStart = 0 := c₂
  obtain ⟨s₃, e₃, -, p₃, -⟩ :=
    delete_removes_char_before_caret s₂ l₂ (by rw [t₂, c₂]; decide)
  obtain ⟨t₃, c₃⟩ := p₃ c₂
  rw [t₂] at t₃
  exact ⟨s₁, s₂, s₃, e₁, t₁, c₁, e₂, t₂, c₂, e₃, t₃, c₃⟩

/-- C10: for a negative position, `SetCaretPos` returns normally (no exception reaches the
caller) and leaves the text, the caret and the selection of the buffer as they were; it
only writes a line to the debug output. -/
theorem negative_caret_is_ignored (form : CalculatorForm) (p : Int) (focus : Bool)
    (hp : p < 0) :
    ∃ s, form.SetCaretPos p focus = Except.ok s ∧
      s.InputTextBox = form.InputTextBox ∧
      s.DebugOutput = form.DebugOutput ++ [("Caret less than 0: " ++ toString p).toList] := by
  rw [SetCaretPos_neg _ _ _ hp]
  exact ⟨_, rfl, rfl, rfl⟩

/-- C10 at position `-1` on the buffer `"12"` with the caret at 1. -/
theorem negative_caret_is_ignored_witness :
    ∃ s, (withBuffer ['1', '2'] 1 0 []).SetCaretPos (-1) true = Except.ok s ∧
      s.InputTextBox = { Text := ['1', '2'], SelectionStart := 1, SelectionLength := 0 } ∧
      s.DebugOutput = [("Caret less than 0: " ++ toString (-1 : Int)).toList] :=
  negative_caret_is_ignored (withBuffer ['1', '2'] 1 0 []) (-1) true (by decide)

/-! ## Evaluating (`SendButton_Click`) -/

/-- C1 at the response `"NaN"`: the handler reports a syntax error, as the response holds the
sentinel in mixed case, but the text it carries is the whole response, since the ordinal
`Replace("nan", "")` finds nothing to strip; the carried text still holds the sentinel. -/
theorem syntax_error_keeps_mixed_case_sentinel {Double : Type} (rt : Runtime Double)
    (form : CalculatorForm) :
    ∃ r, form.SendButton_Click rt (deviceAnswering ['N', 'a', 'N']) = Except.ok r ∧
      r.outcome = Except.error (EvalError.SyntaxError ['N', 'a', 'N']) ∧
      Contains (ToLower ['N', 'a', 'N']) nan = true :=
  ⟨_, rfl, rfl, rfl⟩

/-- C7: when the port opens, the request is written, and the response neither shows the
sentinel nor fails to parse, and the parsed value equals its own floor, the evaluation
succeeds and the result text is the value formatted with zero decimal places (`"F0"`). -/
theorem whole_result_formatted_F0 {Double : Type} (rt : Runtime Double) (os : Win32)
    (form : CalculatorForm) (opened written : Bifrost) (response : Str) (resultValue : Double)
    (hopen : Bifrost.new.Open os form.GetTargetCom
      ((form.GetTargetBaudrate rt) % 2 ^ 32).toNat = (true, opened))
    (hwrite : opened.WriteData os (ToLower (Trim form.GetCurrentExpression) ++ ['\n']) =
      (true, written))
    (hread : (written.ReadData os readBudget).1 = response)
    (hnan : Contains (ToLower response) nan = false)
    (hparse : rt.ToDouble (Trim response) = Except.ok resultValue)
    (hwhole : rt.Equals resultValue (rt.Floor resultValue) = true) :
    ∃ r, form.SendButton_Click rt os = Except.ok r ∧
      r.outcome = Except.ok (rt.ToStringF0 resultValue) := by
  unfold SendButton_Click
  simp only [GetTargetCom, GetTargetBaudrate, GetCurrentExpression] at hopen hwrite ⊢
  simp only [hopen]
  simp (disch := omega) [hwrite, hread, hnan, hparse, hwhole, bind, Except.bind, pure,
    Except.pure, SetCaretPos_nonneg]

/-- C7 at the response `"10"`: the result text is `"10"`. -/
theorem whole_result_formatted_F0_witness :
    ∃ r, (withBuffer ['2', '0', '/', '2'] 4 0 []).SendButton_Click decimalRuntime
        (deviceAnswering ['1', '0']) = Except.ok r ∧
      r.outcome = Except.ok ['1', '0'] :=
  whole_result_formatted_F0 decimalRuntime (deviceAnswering ['1', '0'])
    (withBuffer ['2', '0', '/', '2'] 4 0 []) _ _ ['1', '0'] { mantissa := 10, scale := 0 }
    rfl rfl rfl (by decide) rfl rfl

/-- C8: when the port opens, the request is written, and the response neither shows the
sentinel nor fails to parse, and the parsed value differs from its own floor, the
evaluation succeeds and the result text is the value formatted with six decimal places
(`"F6"`). -/
theorem fractional_result_formatted_F6 {Double : Type} (rt : Runtime Double) (os : Win32)
    (form : CalculatorForm) (opened written : Bifrost) (response : Str) (resultValue : Double)
    (hopen : Bifrost.new.Open os form.GetTargetCom
      ((form.GetTargetBaudrate rt) % 2 ^ 32).toNat = (true, opened))
    (hwrite : opened.WriteData os (ToLower (Trim form.GetCurrentExpression) ++ ['\n']) =
      (true, written))
    (hread : (written.ReadData os readBudget).1 = response)
    (hnan : Contains (ToLower response) nan = false)
    (hparse : rt.ToDouble (Trim response) = Except.ok resultValue)
    (hfrac : rt.Equals resultValue (rt.Floor resultValue) = false) :
    ∃ r, form.SendButton_Click rt os = Except.ok r ∧
      r.outcome = Except.ok (rt.ToStringF6 resultValue) := by
  unfold SendButton_Click
  simp only [GetTargetCom, GetTargetBaudrate, GetCurrentExpression] at hopen hwrite ⊢
  simp only [hopen]
  simp (disch := omega) [hwrite, hread, hnan, hparse, hfrac, bind, Except.bind, pure,
    Except.pure, SetCaretPos_nonneg]

/-- C8 at the response `"3.5"`: the result text is `"3.500000"`. -/
theorem fractional_result_formatted_F6_witness :
    ∃ r, (withBuffer ['7', '/', '2'] 3 0 []).SendButton_Click decimalRuntime
        (deviceAnswering ['3', '.', '5']) = Except.ok r ∧
      r.outcome = Except.ok ['3', '.', '5', '0', '0', '0', '0', '0'] :=
  fractional_result_formatted_F6 decimalRuntime (deviceAnswering ['3', '.', '5'])
    (withBuffer ['7', '/', '2'] 3 0 []) _ _ ['3', '.', '5'] { mantissa := 35, scale := 1 }
    rfl rfl rfl (by decide) rfl rfl

/-- C9: when the port cannot be opened, the evaluation ends in `ChannelUnavailable`, the
bridge holds no open handle, and no `WriteFile` and no `ReadFile` is among the system calls
made. -/
theorem open_failure_is_channel_unavailable {Double : Type} (rt : Runtime Double)
    (os : Win32) (form : CalculatorForm)
    (hopen : (Bifrost.new.Open os form.GetTargetCom
      ((form.GetTargetBaudrate rt) % 2 ^ 32).toNat).1 = false) :
    ∃ r, form.SendButton_Click rt os = Except.ok r ∧
      r.outcome = Except.error EvalError.ChannelUnavailable ∧
      r.bridge.hSerial = none ∧
      ∀ c ∈ r.bridge.Calls,
        (∀ h d, c ≠ SysCall.WriteFile h d) ∧ (∀ h n, c ≠ SysCall.ReadFile h n) := by
  obtain ⟨h1, h2⟩ := Open_false os _ _ hopen
  unfold SendButton_Click
  simp only [GetTargetCom, GetTargetBaudrate] at hopen h1 h2 ⊢
  generalize Bifrost.new.Open os form.ComTextBox _ = res at hopen h1 h2 ⊢
  obtain ⟨opened, bridge⟩ := res
  simp only at hopen h1 h2
  subst hopen
  exact ⟨_, rfl, rfl, h1, h2⟩

/-- C9 on a system without the port: the only system call made is the failed
`CreateFileW`. -/
theorem open_failure_is_channel_unavailable_witness :
    ∃ r, (withBuffer ['1', '+', '1'] 3 0 []).SendButton_Click decimalRuntime noPort =
        Except.ok r ∧
      r.outcome = Except.error EvalError.ChannelUnavailable ∧
      r.bridge.hSerial = none ∧
      ∀ c ∈ r.bridge.Calls,
        (∀ h d, c ≠ SysCall.WriteFile h d) ∧ (∀ h n, c ≠ SysCall.ReadFile h n) :=
  open_failure_is_channel_unavailable decimalRuntime noPort
    (withBuffer ['1', '+', '1'] 3 0 []) rfl

/-! ## The paths of `SendButton_Click` -/

theorem Open_true (os : Win32) (port : Str) (baudrate : Nat) (opened : Bifrost)
    (h : Bifrost.new.Open os port baudrate = (true, opened)) :
    ∃ hd, os.CreateFileW port = some hd ∧
      opened = { hSerial := some hd
                 Calls := [SysCall.CreateFileW port, SysCall.GetCommState hd,
                   SysCall.SetCommState hd baudrate, SysCall.SetCommTimeouts hd] } := by
  unfold Bifrost.Open at h
  simp only [Bifrost.new, List.nil_append] at h
  cases hc : os.CreateFileW port with
  | none => simp [hc] at h
  | some hd =>
    simp only [hc] at h
    by_cases h1 : os.GetCommState hd = true
    · by_cases h2 : os.SetCommState hd baudrate = true
      · by_cases h3 : os.SetCommTimeouts hd = true
        · simp [h1, h2, h3] at h
          exact ⟨hd, rfl, h.symm⟩
        · simp [h1, h2, h3, Bifrost.Close] at h
      · simp [h1, h2, Bifrost.Close] at h
    · simp [h1, Bifrost.Close] at h

theorem Open_false_closed (os : Win32) (port : Str) (baudrate : Nat)
    (h : (Bifrost.new.Open os port baudrate).1 = false) (hd : HANDLE)
    (hc : os.CreateFileW port = some hd) :
    (Bifrost.new.Open os port baudrate).2.Calls.getLast? = some (SysCall.CloseHandle hd) := by
  unfold Bifrost.Open at h ⊢
  simp only [Bifrost.new, List.nil_append, hc] at h ⊢
  by_cases h1 : os.GetCommState hd = true
  · by_cases h2 : os.SetCommState hd baudrate = true
    · by_cases h3 : os.SetCommTimeouts hd = true
      · simp [h1, h2, h3] at h
      · simp [h1, h2, h3, Bifrost.Close]
    · simp [h1, h2, Bifrost.Close]
  · simp [h1, Bifrost.Close]

theorem WriteData_eq (os : Win32) (hd : HANDLE) (calls : List SysCall) (data : Str) :
    Bifrost.WriteData os (Bifrost.mk (some hd) calls) data =
      (os.WriteFile hd data, Bifrost.mk (some hd) (calls ++ [SysCall.WriteFile hd data])) := by
  unfold Bifrost.WriteData
  cases h : os.WriteFile hd data <;> simp [h]

theorem ReadData_bridge (os : Win32) (hd : HANDLE) (calls : List SysCall) (numBytes : Nat) :
    (Bifrost.ReadData os (Bifrost.mk (some hd) calls) numBytes).2 =
      Bifrost.mk (some hd) (calls ++ [SysCall.ReadFile hd numBytes]) := by
  unfold Bifrost.ReadData
  cases h : os.ReadFile hd numBytes <;> simp [h]

theorem SendButton_Click_open_failed {Double : Type} (rt : Runtime Double) (os : Win32)
    (form : CalculatorForm)
    (hopen : (Bifrost.new.Open os form.GetTargetCom
      ((form.GetTargetBaudrate rt) % 2 ^ 32).toNat).1 = false) :
    ∃ r, form.SendButton_Click rt os = Except.ok r ∧
      r.outcome = Except.error EvalError.ChannelUnavailable ∧
      r.bridge = (Bifrost.new.Open os form.GetTargetCom
        ((form.GetTargetBaudrate rt) % 2 ^ 32).toNat).2 ∧
      r.form.InputTextBox = form.InputTextBox ∧
      r.form.LastResult = form.LastResult ∧
      r.form.OperationsListBox = form.OperationsListBox := by
  unfold SendButton_Click
  simp only [GetTargetCom, GetTargetBaudrate] at hopen ⊢
  generalize Bifrost.new.Open os form.ComTextBox _ = res at hopen ⊢
  obtain ⟨opened, bridge⟩ := res
  simp only at hopen
  subst hopen
  exact ⟨_, rfl, rfl, rfl, rfl, rfl, rfl⟩

theorem SendButton_Click_write_failed {Double : Type} (rt : Runtime Double) (os : Win32)
    (form : CalculatorForm) (opened : Bifrost)
    (hopen : Bifrost.new.Open os form.GetTargetCom
      ((form.GetTargetBaudrate rt) % 2 ^ 32).toNat = (true, opened))
    (hwrite : (opened.WriteData os (ToLower (Trim form.GetCurrentExpression) ++ ['\n'])).1 =
      false) :
    ∃ r hd, form.SendButton_Click rt os = Except.ok r ∧
      r.outcome = Except.error EvalError.WriteFailed ∧
      os.CreateFileW form.GetTargetCom = some hd ∧
      r.bridge =
        { hSerial := none
          Calls := [SysCall.CreateFileW form.GetTargetCom, SysCall.GetCommState hd,
            SysCall.SetCommState hd ((form.GetTargetBaudrate rt) % 2 ^ 32).toNat,
            SysCall.SetCommTimeouts hd,
            SysCall.WriteFile hd (ToLower (Trim form.GetCurrentExpression) ++ ['\n']),
            SysCall.CloseHandle hd] } ∧
      r.form.InputTextBox = form.InputTextBox ∧
      r.form.LastResult = form.LastResult ∧
      r.form.OperationsListBox = form.OperationsListBox := by
  obtain ⟨hd, hc, rfl⟩ := Open_true os _ _ _ hopen
  unfold SendButton_Click
  simp only [GetTargetCom, GetTargetBaudrate, GetCurrentExpression] at hopen hwrite hc ⊢
  simp only [hopen]
  by_cases hw : os.WriteFile hd (ToLower (Trim form.InputTextBox.Text) ++ ['\n']) = true
  · simp [Bifrost.WriteData, hw] at hwrite
  · simp [Bifrost.WriteData, hw, Bifrost.Close, ShowError, hc, pure, Except.pure]

theorem SendButton_Click_syntax_error {Double : Type} (rt : Runtime Double) (os : Win32)
    (form : CalculatorForm) (opened written : Bifrost) (response : Str)
    (hopen : Bifrost.new.Open os form.GetTargetCom
      ((form.GetTargetBaudrate rt) % 2 ^ 32).toNat = (true, opened))
    (hwrite : opened.WriteData os (ToLower (Trim form.GetCurrentExpression) ++ ['\n']) =
      (true, written))
    (hread : (written.ReadData os readBudget).1 = response)
    (hnan : Contains (ToLower response) nan = true) :
    ∃ r hd, form.SendButton_Click rt os = Except.ok r ∧
      r.outcome = Except.error (EvalError.SyntaxError (Replace response nan [])) ∧
      os.CreateFileW form.GetTargetCom = some hd ∧
      r.bridge =
        { hSerial := none
          Calls := [SysCall.CreateFileW form.GetTargetCom, SysCall.GetCommState hd,
            SysCall.SetCommState hd ((form.GetTargetBaudrate rt) % 2 ^ 32).toNat,
            SysCall.SetCommTimeouts hd,
            SysCall.WriteFile hd (ToLower (Trim form.GetCurrentExpression) ++ ['\n']),
            SysCall.ReadFile hd readBudget,
            SysCall.CloseHandle hd] } ∧
      r.form.InputTextBox = form.InputTextBox ∧
      r.form.LastResult = form.LastResult ∧
      r.form.OperationsListBox = form.OperationsListBox := by
  obtain ⟨hd, hc, rfl⟩ := Open_true os _ _ _ hopen
  have e1 : ({ form with SendButtonEnabled := false } : CalculatorForm).GetTargetBaudrate rt =
      form.GetTargetBaudrate rt := rfl
  have e2 : ({ form with SendButtonEnabled := false } : CalculatorForm).GetTargetCom =
      form.GetTargetCom := rfl
  have e3 : ({ form with SendButtonEnabled := false } : CalculatorForm).GetCurrentExpression =
      form.GetCurrentExpression := rfl
  unfold SendButton_Click
  simp only [e1, e2, e3]
  generalize ((form.GetTargetBaudrate rt) % 2 ^ 32).toNat = baud at *
  generalize form.GetTargetCom = port at *
  generalize ToLower (Trim form.GetCurrentExpression) ++ ['\n'] = data at *
  rw [WriteData_eq] at hwrite
  obtain ⟨hw, rfl⟩ := Prod.mk.inj hwrite
  have hrd : Bifrost.ReadData os (Bifrost.mk (some hd)
      ([SysCall.CreateFileW port, SysCall.GetCommState hd, SysCall.SetCommState hd baud,
        SysCall.SetCommTimeouts hd] ++ [SysCall.WriteFile hd data])) readBudget =
      (response, Bifrost.mk (some hd)
        ([SysCall.CreateFileW port, SysCall.GetCommState hd, SysCall.SetCommState hd baud,
          SysCall.SetCommTimeouts hd] ++ [SysCall.WriteFile hd data] ++
          [SysCall.ReadFile hd readBudget])) :=
    Prod.ext hread (ReadData_bridge os hd _ readBudget)
  simp only [hopen, WriteData_eq, hw, hrd]
  simp [Bifrost.Close, ShowError, hc, pure, Except.pure, hnan]

theorem SendButton_Click_success {Double : Type} (rt : Runtime Double) (os : Win32)
    (form : CalculatorForm) (opened written : Bifrost) (response text : Str)
    (hopen : Bifrost.new.Open os form.GetTargetCom
      ((form.GetTargetBaudrate rt) % 2 ^ 32).toNat = (true, opened))
    (hwrite : opened.WriteData os (ToLower (Trim form.GetCurrentExpression) ++ ['\n']) =
      (true, written))
    (hread : (written.ReadData os readBudget).1 = response)
    (hnan : Contains (ToLower response) nan = false)
    (hconv : (∃ v, rt.ToDouble (Trim response) = Except.ok v ∧
        text = if rt.Equals v (rt.Floor v) then rt.ToStringF0 v else rt.ToStringF6 v) ∨
      (rt.ToDouble (Trim response) = Except.error Exception.Format ∧ text = Trim response)) :
    ∃ r hd, form.SendButton_Click rt os = Except.ok r ∧
      r.outcome = Except.ok text ∧
      os.CreateFileW form.GetTargetCom = some hd ∧
      r.bridge =
        { hSerial := none
          Calls := [SysCall.CreateFileW form.GetTargetCom, SysCall.GetCommState hd,
            SysCall.SetCommState hd ((form.GetTargetBaudrate rt) % 2 ^ 32).toNat,
            SysCall.SetCommTimeouts hd,
            SysCall.WriteFile hd (ToLower (Trim form.GetCurrentExpression) ++ ['\n']),
            SysCall.ReadFile hd readBudget,
            SysCall.CloseHandle hd] } ∧
      r.form.InputTextBox = { Text := [], SelectionStart := 0, SelectionLength := 0 } ∧
      r.form.LastResult = text ∧
      r.form.OperationsListBox =
        (form.GetCurrentExpression ++ [' ', '=', ' '] ++ text) :: form.OperationsListBox := by
  obtain ⟨hd, hc, rfl⟩ := Open_true os _ _ _ hopen
  have e1 : ({ form with SendButtonEnabled := false } : CalculatorForm).GetTargetBaudrate rt =
      form.GetTargetBaudrate rt := rfl
  have e2 : ({ form with SendButtonEnabled := false } : CalculatorForm).GetTargetCom =
      form.GetTargetCom := rfl
  have e3 : ({ form with SendButtonEnabled := false } : CalculatorForm).GetCurrentExpression =
      form.GetCurrentExpression := rfl
  unfold SendButton_Click
  simp only [e1, e2, e3]
  generalize ((form.GetTargetBaudrate rt) % 2 ^ 32).toNat = baud at *
  generalize form.GetTargetCom = port at *
  generalize ToLower (Trim form.GetCurrentExpression) ++ ['\n'] = data at *
  rw [WriteData_eq] at hwrite
  obtain ⟨hw, rfl⟩ := Prod.mk.inj hwrite
  have hrd : Bifrost.ReadData os (Bifrost.mk (some hd)
      ([SysCall.CreateFileW port, SysCall.GetCommState hd, SysCall.SetCommState hd baud,
        SysCall.SetCommTimeouts hd] ++ [SysCall.WriteFile hd data])) readBudget =
      (response, Bifrost.mk (some hd)
        ([SysCall.CreateFileW port, SysCall.GetCommState hd, SysCall.SetCommState hd baud,
          SysCall.SetCommTimeouts hd] ++ [SysCall.WriteFile hd data] ++
          [SysCall.ReadFile hd readBudget])) :=
    Prod.ext hread (ReadData_bridge os hd _ readBudget)
  simp only [hopen, WriteData_eq, hw, hrd]
  rcases hconv with ⟨v, hv, rfl⟩ | ⟨hf, rfl⟩
  · by_cases hq : rt.Equals v (rt.Floor v) = true
    · simp (disch := omega) [Bifrost.Close, hc, pure, Except.pure, bind, Except.bind, hnan, hv,
        hq, SetCaretPos_nonneg, TextBox.setText, GetCurrentExpression]
    · simp (disch := omega) [Bifrost.Close, hc, pure, Except.pure, bind, Except.bind, hnan, hv,
        hq, SetCaretPos_nonneg, TextBox.setText, GetCurrentExpression]
  · simp (disch := omega) [Bifrost.Close, hc, pure, Except.pure, bind, Except.bind, hnan, hf,
      SetCaretPos_nonneg, TextBox.setText, GetCurrentExpression]

theorem SendButton_Click_raised {Double : Type} (rt : Runtime Double) (os : Win32)
    (form : CalculatorForm) (opened written : Bifrost) (response : Str) (e : Exception)
    (hopen : Bifrost.new.Open os form.GetTargetCom
      ((form.GetTargetBaudrate rt) % 2 ^ 32).toNat = (true, opened))
    (hwrite : opened.WriteData os (ToLower (Trim form.GetCurrentExpression) ++ ['\n']) =
      (true, written))
    (hread : (written.ReadData os readBudget).1 = response)
    (hnan : Contains (ToLower response) nan = false)
    (hconv : rt.ToDouble (Trim response) = Except.error e) (he : e ≠ Exception.Format) :
    form.SendButton_Click rt os = Except.error e := by
  unfold SendButton_Click
  simp only [GetTargetCom, GetTargetBaudrate, GetCurrentExpression] at hopen hwrite ⊢
  simp only [hopen, hwrite]
  cases e with
  | Format => exact absurd rfl he
  | ArgumentOutOfRange =>
    simp [hread, hnan, hconv, bind, Except.bind, throw, throwThe, MonadExceptOf.throw]
  | Overflow =>
    simp [hread, hnan, hconv, bind, Except.bind, throw, throwThe, MonadExceptOf.throw]

theorem SendButton_Click_cases {Double : Type} (rt : Runtime Double) (os : Win32)
    (form : CalculatorForm) :
    (Bifrost.new.Open os form.GetTargetCom
      ((form.GetTargetBaudrate rt) % 2 ^ 32).toNat).1 = false ∨
    ∃ opened, Bifrost.new.Open os form.GetTargetCom
        ((form.GetTargetBaudrate rt) % 2 ^ 32).toNat = (true, opened) ∧
      ((opened.WriteData os (ToLower (Trim form.GetCurrentExpression) ++ ['\n'])).1 = false ∨
       ∃ written response,
        opened.WriteData os (ToLower (Trim form.GetCurrentExpression) ++ ['\n']) =
          (true, written) ∧
        (written.ReadData os readBudget).1 = response ∧
        (Contains (ToLower response) nan = true ∨
         (Contains (ToLower response) nan = false ∧
          ((∃ text, (∃ v, rt.ToDouble (Trim response) = Except.ok v ∧
              text = if rt.Equals v (rt.Floor v) then rt.ToStringF0 v
                else rt.ToStringF6 v) ∨
            (rt.ToDouble (Trim response) = Except.error Exception.Format ∧
              text = Trim response)) ∨
           ∃ e, rt.ToDouble (Trim response) = Except.error e ∧ e ≠ Exception.Format)))) := by
  generalize Bifrost.new.Open os form.GetTargetCom _ = res
  obtain ⟨ok, opened⟩ := res
  cases ok with
  | false => exact Or.inl rfl
  | true =>
    refine Or.inr ⟨opened, rfl, ?_⟩
    generalize opened.WriteData os _ = res2
    obtain ⟨ok2, written⟩ := res2
    cases ok2 with
    | false => exact Or.inl rfl
    | true =>
      refine Or.inr ⟨written, _, rfl, rfl, ?_⟩
      cases hn : Contains (ToLower (written.ReadData os readBudget).1) nan with
      | true => exact Or.inl rfl
      | false =>
        refine Or.inr ⟨rfl, ?_⟩
        cases hv : rt.ToDouble (Trim (written.ReadData os readBudget).1) with
        | ok v => exact Or.inl ⟨_, Or.inl ⟨v, rfl, rfl⟩⟩
        | error e =>
          by_cases he : e = Exception.Format
          · subst he
            exact Or.inl ⟨_, Or.inr ⟨rfl, rfl⟩⟩
          · exact Or.inr ⟨e, rfl, he⟩

/-! ## The session and the failure paths -/

/-- C12: whatever open, write and read answer, the handler either returns with the bridge
holding no open handle and, for every handle that `CreateFileW` gave out (so whenever the
open succeeded), `CloseHandle` on it as the last system call made; or the number conversion
raised an exception other than a format error, which the handler does not catch. -/
theorem session_closed_on_return {Double : Type} (rt : Runtime Double) (os : Win32)
    (form : CalculatorForm) :
    (∃ r, form.SendButton_Click rt os = Except.ok r ∧
      r.bridge.hSerial = none ∧
      ∀ hd, os.CreateFileW form.GetTargetCom = some hd →
        r.bridge.Calls.getLast? = some (SysCall.CloseHandle hd)) ∨
    (∃ e, form.SendButton_Click rt os = Except.error e ∧ e ≠ Exception.Format) := by
  rcases SendButton_Click_cases rt os form with
    hf | ⟨opened, ho, hw | ⟨written, response, hw, hr, hn | ⟨hn, ⟨text, hc⟩ | ⟨e, hc, he⟩⟩⟩⟩
  · obtain ⟨r, h, -, hb, -⟩ := SendButton_Click_open_failed rt os form hf
    refine Or.inl ⟨r, h, ?_, ?_⟩
    · rw [hb]; exact (Open_false os _ _ hf).1
    · intro hd hc
      rw [hb]; exact Open_false_closed os _ _ hf hd hc
  · obtain ⟨r, hd, h, -, hc, hb, -⟩ := SendButton_Click_write_failed rt os form opened ho hw
    refine Or.inl ⟨r, h, by rw [hb], ?_⟩
    intro hd2 hc2
    rw [hc] at hc2
    obtain rfl := Option.some.inj hc2
    rw [hb]; rfl
  · obtain ⟨r, hd, h, -, hc, hb, -⟩ :=
      SendButton_Click_syntax_error rt os form opened written response ho hw hr hn
    refine Or.inl ⟨r, h, by rw [hb], ?_⟩
    intro hd2 hc2
    rw [hc] at hc2
    obtain rfl := Option.some.inj hc2
    rw [hb]; rfl
  · obtain ⟨r, hd, h, -, hc2, hb, -⟩ :=
      SendButton_Click_success rt os form opened written response text ho hw hr hn hc
    refine Or.inl ⟨r, h, by rw [hb], ?_⟩
    intro hd2 hc3
    rw [hc2] at hc3
    obtain rfl := Option.some.inj hc3
    rw [hb]; rfl
  · exact Or.inr ⟨e, SendButton_Click_raised rt os form opened written response e ho hw hr hn
      hc he, he⟩

/-- C13: when the port opens and the transport rejects the write, the handler returns
`WriteFailed`; `CloseHandle` on the handle of the session is the last system call, the
bridge holds no open handle, and no `ReadFile` was made. -/
theorem write_failure_closes_without_read {Double : Type} (rt : Runtime Double) (os : Win32)
    (form : CalculatorForm) (opened : Bifrost)
    (hopen : Bifrost.new.Open os form.GetTargetCom
      ((form.GetTargetBaudrate rt) % 2 ^ 32).toNat = (true, opened))
    (hwrite : (opened.WriteData os (ToLower (Trim form.GetCurrentExpression) ++ ['\n'])).1 =
      false) :
    ∃ r hd, form.SendButton_Click rt os = Except.ok r ∧
      r.outcome = Except.error EvalError.WriteFailed ∧
      opened.hSerial = some hd ∧
      r.bridge.hSerial = none ∧
      r.bridge.Calls.getLast? = some (SysCall.CloseHandle hd) ∧
      (∀ c ∈ r.bridge.Calls, ∀ h n, c ≠ SysCall.ReadFile h n) := by
  obtain ⟨r, hd, h, ho, hc, hb, -⟩ :=
    SendButton_Click_write_failed rt os form opened hopen hwrite
  obtain ⟨hd2, hc2, rfl⟩ := Open_true os _ _ _ hopen
  rw [hc] at hc2
  obtain rfl := Option.some.inj hc2
  refine ⟨r, hd, h, ho, rfl, by rw [hb], by rw [hb]; rfl, ?_⟩
  rw [hb]
  intro c hc h n
  simp only [List.mem_cons, List.mem_singleton, List.not_mem_nil, or_false] at hc
  rcases hc with rfl | rfl | rfl | rfl | rfl | rfl <;> simp

/-- C13 on a port that rejects writes. -/
theorem write_failure_closes_without_read_witness :
    ∃ r hd, (withBuffer ['1', '+', '1'] 3 0 []).SendButton_Click decimalRuntime
        deviceRejectingWrites = Except.ok r ∧
      r.outcome = Except.error EvalError.WriteFailed ∧
      (Bifrost.new.Open deviceRejectingWrites ['C', 'O', 'M', '4'] 9600).2.hSerial = some hd ∧
      r.bridge.hSerial = none ∧
      r.bridge.Calls.getLast? = some (SysCall.CloseHandle hd) ∧
      (∀ c ∈ r.bridge.Calls, ∀ h n, c ≠ SysCall.ReadFile h n) :=
  write_failure_closes_without_read decimalRuntime deviceRejectingWrites
    (withBuffer ['1', '+', '1'] 3 0 []) _ rfl rfl

/-- C14: when the handler returns with a failure (the port did not open, the write was
rejected, or the response showed the sentinel), the text box (text, caret and selection),
the last result and the history are as they were before the call. -/
theorem failure_leaves_editor_state {Double : Type} (rt : Runtime Double) (os : Win32)
    (form : CalculatorForm) (r : SendResult) (e : EvalError)
    (hret : form.SendButton_Click rt os = Except.ok r)
    (hfail : r.outcome = Except.error e) :
    r.form.InputTextBox = form.InputTextBox ∧
    r.form.LastResult = form.LastResult ∧
    r.form.OperationsListBox = form.OperationsListBox := by
  rcases SendButton_Click_cases rt os form with
    hf | ⟨opened, ho, hw | ⟨written, response, hw, hr, hn | ⟨hn, ⟨text, hc⟩ | ⟨e2, hc, he⟩⟩⟩⟩
  · obtain ⟨r2, h, -, -, h1, h2, h3⟩ := SendButton_Click_open_failed rt os form hf
    rw [hret] at h
    obtain rfl := Except.ok.inj h
    exact ⟨h1, h2, h3⟩
  · obtain ⟨r2, hd, h, -, -, -, h1, h2, h3⟩ :=
      SendButton_Click_write_failed rt os form opened ho hw
    rw [hret] at h
    obtain rfl := Except.ok.inj h
    exact ⟨h1, h2, h3⟩
  · obtain ⟨r2, hd, h, -, -, -, h1, h2, h3⟩ :=
      SendButton_Click_syntax_error rt os form opened written response ho hw hr hn
    rw [hret] at h
    obtain rfl := Except.ok.inj h
    exact ⟨h1, h2, h3⟩
  · obtain ⟨r2, hd, h, ho2, -⟩ :=
      SendButton_Click_success rt os form opened written response text ho hw hr hn hc
    rw [hret] at h
    obtain rfl := Except.ok.inj h
    rw [hfail] at ho2
    cases ho2
  · rw [SendButton_Click_raised rt os form opened written response e2 ho hw hr hn hc he] at hret
    cases hret

/-- C14 on a system without the port: the buffer `"1+1"` with the caret at 3, the last
result `"7"` and the empty history are kept. -/
theorem failure_leaves_editor_state_witness :
    ∃ r e, (withBuffer ['1', '+', '1'] 3 0 ['7']).SendButton_Click decimalRuntime noPort =
        Except.ok r ∧
      r.outcome = Except.error e ∧
      r.form.InputTextBox =
        { Text := ['1', '+', '1'], SelectionStart := 3, SelectionLength := 0 } ∧
      r.form.LastResult = ['7'] ∧
      r.form.OperationsListBox = [] :=
  ⟨_, EvalError.ChannelUnavailable, rfl, rfl,
    failure_leaves_editor_state decimalRuntime noPort (withBuffer ['1', '+', '1'] 3 0 ['7'])
      _ EvalError.ChannelUnavailable rfl rfl⟩

/-- C15: when the port opens, the request is written, and the response neither shows the
sentinel nor parses as a number (the conversion raises a format error), the evaluation
succeeds and the result text is the trimmed response, unchanged. -/
theorem non_numeric_response_passes_through {Double : Type} (rt : Runtime Double) (os : Win32)
    (form : CalculatorForm) (opened written : Bifrost) (response : Str)
    (hopen : Bifrost.new.Open os form.GetTargetCom
      ((form.GetTargetBaudrate rt) % 2 ^ 32).toNat = (true, opened))
    (hwrite : opened.WriteData os (ToLower (Trim form.GetCurrentExpression) ++ ['\n']) =
      (true, written))
    (hread : (written.ReadData os readBudget).1 = response)
    (hnan : Contains (ToLower response) nan = false)
    (hparse : rt.ToDouble (Trim response) = Except.error Exception.Format) :
    ∃ r, form.SendButton_Click rt os = Except.ok r ∧
      r.outcome = Except.ok (Trim response) ∧
      r.form.LastResult = Trim response := by
  obtain ⟨r, hd, h, ho, -, -, -, hl, -⟩ :=
    SendButton_Click_success rt os form opened written response (Trim response) hopen hwrite
      hread hnan (Or.inr ⟨hparse, rfl⟩)
  exact ⟨r, h, ho, hl⟩

/-- C15 at the response `" ovf\r\n"`: the result text is `"ovf"`. -/
theorem non_numeric_response_passes_through_witness :
    ∃ r, (withBuffer ['9', '^', '9', '9', '9'] 5 0 []).SendButton_Click decimalRuntime
        (deviceAnswering [' ', 'o', 'v', 'f', '\r', '\n']) = Except.ok r ∧
      r.outcome = Except.ok ['o', 'v', 'f'] ∧
      r.form.LastResult = ['o', 'v', 'f'] :=
  non_numeric_response_passes_through decimalRuntime
    (deviceAnswering [' ', 'o', 'v', 'f', '\r', '\n'])
    (withBuffer ['9', '^', '9', '9', '9'] 5 0 []) _ _ [' ', 'o', 'v', 'f', '\r', '\n']
    rfl rfl rfl (by decide) rfl

/-- C16: when the handler returns with success and result text `text`, the last result is
`text` and the history is the entry `e ++ " = " ++ text`, for the buffer text `e` as it
stood before the call, followed by the history as it was. -/
theorem success_records_result {Double : Type} (rt : Runtime Double) (os : Win32)
    (form : CalculatorForm) (r : SendResult) (text : Str)
    (hret : form.SendButton_Click rt os = Except.ok r)
    (hsucc : r.outcome = Except.ok text) :
    r.form.LastResult = text ∧
    r.form.OperationsListBox =
      (form.InputTextBox.Text ++ [' ', '=', ' '] ++ text) :: form.OperationsListBox := by
  rcases SendButton_Click_cases rt os form with
    hf | ⟨opened, ho, hw | ⟨written, response, hw, hr, hn | ⟨hn, ⟨text2, hc⟩ | ⟨e2, hc, he⟩⟩⟩⟩
  · obtain ⟨r2, h, ho2, -⟩ := SendButton_Click_open_failed rt os form hf
    rw [hret] at h
    obtain rfl := Except.ok.inj h
    rw [hsucc] at ho2
    cases ho2
  · obtain ⟨r2, hd, h, ho2, -⟩ := SendButton_Click_write_failed rt os form opened ho hw
    rw [hret] at h
    obtain rfl := Except.ok.inj h
    rw [hsucc] at ho2
    cases ho2
  · obtain ⟨r2, hd, h, ho2, -⟩ :=
      SendButton_Click_syntax_error rt os form opened written response ho hw hr hn
    rw [hret] at h
    obtain rfl := Except.ok.inj h
    rw [hsucc] at ho2
    cases ho2
  · obtain ⟨r2, hd, h, ho2, -, -, -, hl, hh⟩ :=
      SendButton_Click_success rt os form opened written response text2 ho hw hr hn hc
    rw [hret] at h
    obtain rfl := Except.ok.inj h
    rw [hsucc] at ho2
    obtain rfl := Except.ok.inj ho2
    exact ⟨hl, hh⟩
  · rw [SendButton_Click_raised rt os form opened written response e2 ho hw hr hn hc he] at hret
    cases hret

/-- C16 on the buffer `"7/2"` with the history `["1+1 = 2"]` and the response `"3.5"`: the
last result is `"3.500000"` and the history is `["7/2 = 3.500000", "1+1 = 2"]`. -/
theorem success_records_result_witness :
    ∃ r, ({ withBuffer ['7', '/', '2'] 3 0 ['2'] with
          OperationsListBox := [['1', '+', '1', ' ', '=', ' ', '2']] } :
          CalculatorForm).SendButton_Click decimalRuntime (deviceAnswering ['3', '.', '5']) =
        Except.ok r ∧
      r.outcome = Except.ok ['3', '.', '5', '0', '0', '0', '0', '0'] ∧
      r.form.LastResult = ['3', '.', '5', '0', '0', '0', '0', '0'] ∧
      r.form.OperationsListBox =
        [['7', '/', '2', ' ', '=', ' ', '3', '.', '5', '0', '0', '0', '0', '0'],
         ['1', '+', '1', ' ', '=', ' ', '2']] :=
  ⟨_, rfl, rfl,
    success_records_result decimalRuntime (deviceAnswering ['3', '.', '5'])
      { withBuffer ['7', '/', '2'] 3 0 ['2'] with
        OperationsListBox := [['1', '+', '1', ' ', '=', ' ', '2']] }
      _ ['3', '.', '5', '0', '0', '0', '0', '0'] rfl rfl⟩

/-! ## The request -/

theorem toLower_ofNat_upper (n : Nat) (h1 : 65 ≤ n) (h2 : n ≤ 90) :
    IsWhiteSpace (Char.ofNat (n + 32)) = false ∧ IsWhiteSpace (Char.ofNat n) = false ∧
      (Char.ofNat (n + 32)).isUpper = false := by
  interval_cases n <;> decide

theorem isUpper_iff (c : Char) : c.isUpper = true ↔ 65 ≤ c.toNat ∧ c.toNat ≤ 90 := by
  simp [Char.isUpper, Char.toNat, UInt32.le_def, UInt32.toNat, BitVec.le_def]

theorem IsWhiteSpace_toLower (c : Char) : IsWhiteSpace c.toLower = IsWhiteSpace c := by
  unfold Char.toLower
  by_cases h : c.toNat ≥ 65 ∧ c.toNat ≤ 90
  · simp only [h, and_self, if_true]
    have hk := toLower_ofNat_upper c.toNat h.1 h.2
    rw [Char.ofNat_toNat] at hk
    rw [hk.1, hk.2.1]
  · simp only [h, if_false]

theorem isUpper_toLower (c : Char) : c.toLower.isUpper = false := by
  unfold Char.toLower
  by_cases h : c.toNat ≥ 65 ∧ c.toNat ≤ 90
  · simp only [h, and_self, if_true]
    exact (toLower_ofNat_upper c.toNat h.1 h.2).2.2
  · simp only [h, if_false]
    cases hu : c.isUpper with
    | false => rfl
    | true => exact absurd ((isUpper_iff c).mp hu) h

theorem Trim_eq_rdropWhile (s : Str) :
    Trim s = (s.dropWhile IsWhiteSpace).rdropWhile IsWhiteSpace := rfl

theorem Trim_head_not_white (s : Str) (c : Char) (h : (Trim s).head? = some c) :
    IsWhiteSpace c = false := by
  rw [Trim_eq_rdropWhile] at h
  obtain ⟨t, ht⟩ := List.rdropWhile_prefix IsWhiteSpace (l := s.dropWhile IsWhiteSpace)
  have h2 : (s.dropWhile IsWhiteSpace).head? = some c := by
    rw [← ht]
    cases hr : (s.dropWhile IsWhiteSpace).rdropWhile IsWhiteSpace with
    | nil => rw [hr] at h; cases h
    | cons a as => rw [hr] at h; simpa using h
  have h3 := List.head?_dropWhile_not IsWhiteSpace s
  rw [h2] at h3
  simpa using h3

theorem Trim_getLast_not_white (s : Str) (c : Char) (h : (Trim s).getLast? = some c) :
    IsWhiteSpace c = false := by
  rw [Trim_eq_rdropWhile] at h
  have hne : (s.dropWhile IsWhiteSpace).rdropWhile IsWhiteSpace ≠ [] := by
    intro h0; rw [h0] at h; cases h
  have h1 := List.rdropWhile_last_not IsWhiteSpace (s.dropWhile IsWhiteSpace) hne
  rw [List.getLast?_eq_getLast _ hne] at h
  obtain rfl := Option.some.inj h
  simpa using h1

theorem ToLower_head (s : Str) : (ToLower s).head? = s.head?.map Char.toLower := by
  cases s <;> rfl

theorem ToLower_getLast (s : Str) : (ToLower s).getLast? = s.getLast?.map Char.toLower := by
  simp [ToLower, List.getLast?_map]

/-- C20: when the port opens, the handler either returns, and then the one write made on the
handle carries the lower-cased, trimmed buffer text followed by `"\n"`, or the number
conversion raised an exception other than a format error.  The text before the terminator
does not start with white space, holds no upper-case letter, and does not end with white
space, so the terminator is the only one at the end. -/
theorem request_is_normalized_expression {Double : Type} (rt : Runtime Double) (os : Win32)
    (form : CalculatorForm) (opened : Bifrost)
    (hopen : Bifrost.new.Open os form.GetTargetCom
      ((form.GetTargetBaudrate rt) % 2 ^ 32).toNat = (true, opened)) :
    ((∃ r hd, form.SendButton_Click rt os = Except.ok r ∧
        opened.hSerial = some hd ∧
        SysCall.WriteFile hd (ToLower (Trim form.InputTextBox.Text) ++ ['\n']) ∈
          r.bridge.Calls ∧
        ∀ c ∈ r.bridge.Calls, ∀ h data, c = SysCall.WriteFile h data →
          data = ToLower (Trim form.InputTextBox.Text) ++ ['\n']) ∨
      (∃ e, form.SendButton_Click rt os = Except.error e ∧ e ≠ Exception.Format)) ∧
    (∀ c, (ToLower (Trim form.InputTextBox.Text)).head? = some c → IsWhiteSpace c = false) ∧
    (∀ c ∈ ToLower (Trim form.InputTextBox.Text), c.isUpper = false) ∧
    (∀ c, (ToLower (Trim form.InputTextBox.Text)).getLast? = some c →
      IsWhiteSpace c = false ∧ c ≠ '\n') := by
  refine ⟨?_, ?_, ?_, ?_⟩
  · obtain ⟨hd0, hc0, hop⟩ := Open_true os _ _ _ hopen
    have hser : opened.hSerial = some hd0 := by rw [hop]
    rcases SendButton_Click_cases rt os form with
      hf | ⟨opened2, ho, hw | ⟨written, response, hw, hr, hn | ⟨hn, ⟨text, hc⟩ | ⟨e, hc, he⟩⟩⟩⟩
    · rw [hopen] at hf; cases hf
    · obtain ⟨r, hd, h, -, hc, hb, -⟩ := SendButton_Click_write_failed rt os form opened2 ho hw
      rw [hc0] at hc
      obtain rfl := Option.some.inj hc
      refine Or.inl ⟨r, hd0, h, hser, ?_, ?_⟩
      · rw [hb]; simp [GetCurrentExpression]
      · rw [hb]
        intro c hc h data hcd
        subst hcd
        simp only [GetCurrentExpression] at hc
        simp at hc
        exact hc.2
    · obtain ⟨r, hd, h, -, hc, hb, -⟩ :=
        SendButton_Click_syntax_error rt os form opened2 written response ho hw hr hn
      rw [hc0] at hc
      obtain rfl := Option.some.inj hc
      refine Or.inl ⟨r, hd0, h, hser, ?_, ?_⟩
      · rw [hb]; simp [GetCurrentExpression]
      · rw [hb]
        intro c hc h data hcd
        subst hcd
        simp only [GetCurrentExpression] at hc
        simp at hc
        exact hc.2
    · obtain ⟨r, hd, h, -, hc2, hb, -⟩ :=
        SendButton_Click_success rt os form opened2 written response text ho hw hr hn hc
      rw [hc0] at hc2
      obtain rfl := Option.some.inj hc2
      refine Or.inl ⟨r, hd0, h, hser, ?_, ?_⟩
      · rw [hb]; simp [GetCurrentExpression]
      · rw [hb]
        intro c hc h data hcd
        subst hcd
        simp only [GetCurrentExpression] at hc
        simp at hc
        exact hc.2
    · exact Or.inr ⟨e, SendButton_Click_raised rt os form opened2 written response e ho hw hr
        hn hc he, he⟩
  · intro c hc
    rw [ToLower_head] at hc
    cases hh : (Trim form.InputTextBox.Text).head? with
    | none => rw [hh] at hc; cases hc
    | some a =>
      rw [hh] at hc
      obtain rfl := Option.some.inj hc
      rw [IsWhiteSpace_toLower]
      exact Trim_head_not_white _ _ hh
  · intro c hc
    simp only [ToLower, List.mem_map] at hc
    obtain ⟨a, -, rfl⟩ := hc
    exact isUpper_toLower a
  · intro c hc
    rw [ToLower_getLast] at hc
    cases hh : (Trim form.InputTextBox.Text).getLast? with
    | none => rw [hh] at hc; cases hc
    | some a =>
      rw [hh] at hc
      obtain rfl := Option.some.inj hc
      have hw : IsWhiteSpace a.toLower = false := by
        rw [IsWhiteSpace_toLower]
        exact Trim_getLast_not_white _ _ hh
      refine ⟨hw, ?_⟩
      intro hn
      rw [hn] at hw
      revert hw
      decide

/-- C20 on the buffer `"  2*SIN(3) "`: the request written is `"2*sin(3)\n"`. -/
theorem request_is_normalized_expression_witness :
    ∃ r, (withBuffer [' ', ' ', '2', '*', 'S', 'I', 'N', '(', '3', ')', ' '] 11 0
        []).SendButton_Click decimalRuntime (deviceAnswering ['0']) = Except.ok r ∧
      SysCall.WriteFile 1 ['2', '*', 's', 'i', 'n', '(', '3', ')', '\n'] ∈ r.bridge.Calls ∧
      ∀ c ∈ r.bridge.Calls, ∀ h data, c = SysCall.WriteFile h data →
        data = ['2', '*', 's', 'i', 'n', '(', '3', ')', '\n'] := by
  have hw := (request_is_normalized_expression decimalRuntime (deviceAnswering ['0'])
    (withBuffer [' ', ' ', '2', '*', 'S', 'I', 'N', '(', '3', ')', ' '] 11 0 []) _ rfl).1
  rcases hw with ⟨r, hd, h, hs, hm, hall⟩ | ⟨e, h, -⟩
  · obtain rfl : 1 = hd := Option.some.inj hs
    exact ⟨r, h, hm, hall⟩
  · cases h

/-! ## Clearing, deleting a selection, and a whole scenario -/

/-- C18: the clear button leaves the buffer text empty (with the caret at 0) and the history
empty, whatever the state was. -/
theorem clear_empties_buffer_and_history (form : CalculatorForm) :
    form.ClearButton_Click.InputTextBox.Text = [] ∧
    form.ClearButton_Click.InputTextBox.SelectionStart = 0 ∧
    form.ClearButton_Click.OperationsListBox = [] :=
  ⟨rfl, rfl, rfl⟩

/-- C19: with a non-empty selection `[s, s + n)` inside the text, the delete button removes
exactly the selected characters (the text becomes the part before `s` followed by the part
from `s + n` on) and leaves the caret at `s` with nothing selected. -/
theorem delete_removes_selection (form : CalculatorForm)
    (hsel : 0 < form.InputTextBox.SelectionLength)
    (hbounds : form.InputTextBox.InBounds) :
    ∃ s, form.DelButton_Click = Except.ok s ∧
      s.InputTextBox.Text =
        form.InputTextBox.Text.take form.InputTextBox.SelectionStart ++
          form.InputTextBox.Text.drop
            (form.InputTextBox.SelectionStart + form.InputTextBox.SelectionLength) ∧
      s.InputTextBox.SelectionStart = form.InputTextBox.SelectionStart ∧
      s.InputTextBox.SelectionLength = 0 := by
  obtain ⟨⟨text, start, len⟩, lr, ops, com, baud, en, foc, dbg, msgs⟩ := form
  simp only [TextBox.InBounds] at hsel hbounds
  have hne : ¬ ((List.take len (List.drop start text)).isEmpty = true) := by
    rw [List.isEmpty_iff]
    intro h
    have hl := congrArg List.length h
    simp only [List.length_take, List.length_drop, List.length_nil] at hl
    omega
  unfold DelButton_Click
  simp [TextBox.SelectedText, IsNullOrEmpty, hne, TextBox.setSelectedText, bind, Except.bind,
    pure, Except.pure, Focus]

/-- C19 on the buffer `"1234"` with `"23"` selected: the text becomes `"14"` and the caret
stands at 1. -/
theorem delete_removes_selection_witness :
    ∃ s, (withBuffer ['1', '2', '3', '4'] 1 2 []).DelButton_Click = Except.ok s ∧
      s.InputTextBox.Text = ['1', '4'] ∧
      s.InputTextBox.SelectionStart = 1 ∧
      s.InputTextBox.SelectionLength = 0 :=
  delete_removes_selection (withBuffer ['1', '2', '3', '4'] 1 2 []) (by decide) (by decide)

/-- C11: from an empty buffer, no last result and an empty history, the `/` button gives
`"0/"`, the `2` button then gives `"0/2"`, and an evaluation that the device answers with
`"0"` (which the runtime reads as a whole number and writes as `"0"`) succeeds with the
result text `"0"`, sets the last result to `"0"` and makes `"0/2 = 0"` the history. -/
theorem end_to_end_scenario {Double : Type} (rt : Runtime Double) (os : Win32)
    (form : CalculatorForm) (opened written : Bifrost) (resultValue : Double)
    (hbuf : form.InputTextBox = { Text := [], SelectionStart := 0, SelectionLength := 0 })
    (hlast : form.LastResult = [])
    (hhist : form.OperationsListBox = [])
    (hopen : Bifrost.new.Open os form.GetTargetCom
      ((form.GetTargetBaudrate rt) % 2 ^ 32).toNat = (true, opened))
    (hwrite : opened.WriteData os ['0', '/', '2', '\n'] = (true, written))
    (hread : (written.ReadData os readBudget).1 = ['0'])
    (hparse : rt.ToDouble ['0'] = Except.ok resultValue)
    (hwhole : rt.Equals resultValue (rt.Floor resultValue) = true)
    (hformat : rt.ToStringF0 resultValue = ['0']) :
    ∃ s₁ s₂ r,
      form.CalculatorButton_Click (Button.other ['/']) = Except.ok s₁ ∧
      s₁.InputTextBox.Text = ['0', '/'] ∧
      s₁.CalculatorButton_Click (Button.other ['2']) = Except.ok s₂ ∧
      s₂.InputTextBox.Text = ['0', '/', '2'] ∧
      s₂.SendButton_Click rt os = Except.ok r ∧
      r.outcome = Except.ok ['0'] ∧
      r.form.LastResult = ['0'] ∧
      r.form.OperationsListBox = [['0', '/', '2', ' ', '=', ' ', '0']] := by
  obtain ⟨tb, lr, ops, com, baud, en, foc, dbg, msgs⟩ := form
  simp only at hbuf hlast hhist
  subst hbuf hlast hhist
  obtain ⟨r, hd, h, ho, -, -, -, hl, hh⟩ := SendButton_Click_success rt os
    { InputTextBox := { Text := ['0', '/', '2'], SelectionStart := 3, SelectionLength := 0 }
      LastResult := []
      OperationsListBox := []
      ComTextBox := com
      BaudRateTextBox := baud
      SendButtonEnabled := en
      InputFocused := true
      DebugOutput := dbg
      MessageBoxes := msgs } opened written ['0'] ['0'] hopen hwrite hread (by decide)
    (Or.inl ⟨resultValue, hparse, by rw [hwhole, hformat]; rfl⟩)
  exact ⟨{ InputTextBox := { Text := ['0', '/'], SelectionStart := 2, SelectionLength := 0 }
           LastResult := []
           OperationsListBox := []
           ComTextBox := com
           BaudRateTextBox := baud
           SendButtonEnabled := en
           InputFocused := true
           DebugOutput := dbg
           MessageBoxes := msgs }, _, r, rfl, rfl, rfl, rfl, h, ho, hl, hh⟩

/-- C11 on the form as it is after loading, with a device that answers `"0"`. -/
theorem end_to_end_scenario_witness :
    ∃ s₁ s₂ r,
      initial.CalculatorButton_Click (Button.other ['/']) = Except.ok s₁ ∧
      s₁.InputTextBox.Text = ['0', '/'] ∧
      s₁.CalculatorButton_Click (Button.other ['2']) = Except.ok s₂ ∧
      s₂.InputTextBox.Text = ['0', '/', '2'] ∧
      s₂.SendButton_Click decimalRuntime (deviceAnswering ['0']) = Except.ok r ∧
      r.outcome = Except.ok ['0'] ∧
      r.form.LastResult = ['0'] ∧
      r.form.OperationsListBox = [['0', '/', '2', ' ', '=', ' ', '0']] :=
  end_to_end_scenario decimalRuntime (deviceAnswering ['0']) initial _ _
    { mantissa := 0, scale := 0 } rfl rfl rfl rfl rfl rfl rfl rfl rfl

/-! ## The caret stays within the text -/

theorem SetCaretPos_within (this : CalculatorForm) (newIndex : Int) (focus : Bool)
    (hb : this.InputTextBox.SelectionStart ≤ this.InputTextBox.Text.length) :
    ∃ s, this.SetCaretPos newIndex focus = Except.ok s ∧
      s.InputTextBox.SelectionStart ≤ s.InputTextBox.Text.length := by
  by_cases h : newIndex < 0
  · rw [SetCaretPos_neg _ _ _ h]
    exact ⟨_, rfl, hb⟩
  · rw [SetCaretPos_nonneg _ _ _ (by omega)]
    exact ⟨_, rfl, Nat.min_le_right _ _⟩

theorem setSelectedText_within (tb : TextBox) (value : Str)
    (hb : tb.SelectionStart ≤ tb.Text.length) :
    (tb.setSelectedText value).SelectionStart ≤ (tb.setSelectedText value).Text.length := by
  simp only [TextBox.setSelectedText, List.length_append, List.length_take]
  omega

theorem ClearIfNan_within (this : CalculatorForm)
    (hb : this.InputTextBox.SelectionStart ≤ this.InputTextBox.Text.length) :
    this.ClearIfNan.InputTextBox.SelectionStart ≤ this.ClearIfNan.InputTextBox.Text.length := by
  unfold ClearIfNan
  split
  · simp [TextBox.setText]
  · exact hb

theorem LeftOperand_within (this : CalculatorForm) (cachedCaretPos : Int) (t : Str)
    (hb : this.InputTextBox.SelectionStart ≤ this.InputTextBox.Text.length) :
    ∃ r, this.LeftOperand cachedCaretPos t = Except.ok r ∧
      r.2.InputTextBox.SelectionStart ≤ r.2.InputTextBox.Text.length := by
  unfold LeftOperand
  split
  · split
    · split
      · obtain ⟨s, hs, hw⟩ := SetCaretPos_within this
          (cachedCaretPos + (['0'] ++ t : Str).length) false hb
        simp only [Insert, Nat.zero_le, ↓reduceIte, List.take_zero, List.nil_append,
          List.drop_zero, pure, Except.pure, bind, Except.bind, hs]
        exact ⟨_, rfl, hw⟩
      · obtain ⟨s, hs, hw⟩ := SetCaretPos_within this
          (cachedCaretPos + (this.LastResult ++ t : Str).length) false hb
        simp only [Insert, Nat.zero_le, ↓reduceIte, List.take_zero, List.nil_append,
          List.drop_zero, pure, Except.pure, bind, Except.bind, hs]
        exact ⟨_, rfl, hw⟩
    · exact ⟨_, rfl, hb⟩
  · exact ⟨_, rfl, hb⟩

theorem InsertText_within (this : CalculatorForm) (t : Str)
    (hb : this.InputTextBox.SelectionStart ≤ this.InputTextBox.Text.length) :
    ∃ r, this.InsertText t = Except.ok r ∧
      r.2.InputTextBox.SelectionStart ≤ r.2.InputTextBox.Text.length := by
  unfold InsertText
  split
  · obtain ⟨s, hs, hw⟩ := SetCaretPos_within
      { this with InputTextBox := this.InputTextBox.setSelectedText (t ++ ['(', ')']) }
      (((this.InputTextBox.setSelectedText (t ++ ['(', ')'])).SelectionStart : Int) - 1) false
      (setSelectedText_within _ _ hb)
    simp only [bind, Except.bind, hs, pure, Except.pure]
    exact ⟨_, rfl, hw⟩
  · split
    · obtain ⟨s, hs, hw⟩ := SetCaretPos_within
        { this with InputTextBox := this.InputTextBox.setSelectedText t }
        (((this.InputTextBox.setSelectedText t).SelectionStart : Int) - 1) false
        (setSelectedText_within _ _ hb)
      simp only [bind, Except.bind, hs, pure, Except.pure]
      exact ⟨_, rfl, hw⟩
    · exact ⟨_, rfl, setSelectedText_within _ _ hb⟩

theorem AdjustCaret_within (this : CalculatorForm) (isPiButton : Bool) (cachedCaretPos : Int)
    (t : Str) (hb : this.InputTextBox.SelectionStart ≤ this.InputTextBox.Text.length) :
    ∃ s, this.AdjustCaret isPiButton cachedCaretPos t = Except.ok s ∧
      s.InputTextBox.SelectionStart ≤ s.InputTextBox.Text.length := by
  unfold AdjustCaret
  split
  · exact SetCaretPos_within _ _ _ hb
  · split
    · exact SetCaretPos_within _ _ _ hb
    · exact ⟨_, rfl, hb⟩

theorem CalculatorButton_Click_within (this : CalculatorForm) (btn : Button)
    (hb : this.InputTextBox.SelectionStart ≤ this.InputTextBox.Text.length) :
    ∃ s, this.CalculatorButton_Click btn = Except.ok s ∧
      s.InputTextBox.SelectionStart ≤ s.InputTextBox.Text.length := by
  unfold CalculatorButton_Click
  have h0 := ClearIfNan_within this hb
  cases ht : this.ClearIfNan.TextToInsert btn with
  | none =>
    simp only [ht]
    exact ⟨_, rfl, h0⟩
  | some t =>
    obtain ⟨r1, e1, w1⟩ := LeftOperand_within this.ClearIfNan this.ClearIfNan.GetCaretPos t h0
    obtain ⟨t1, s1⟩ := r1
    simp only [ht, e1, bind, Except.bind]
    obtain ⟨r2, e2, w2⟩ := InsertText_within s1
      (if (decide (btn = Button.PiButton)) = true then ['3', '.', '1', '4', '1', '5', '9', '3']
        else t1) w1
    obtain ⟨t2, s2⟩ := r2
    simp only [e2]
    obtain ⟨s3, e3, w3⟩ := AdjustCaret_within s2 (decide (btn = Button.PiButton))
      this.ClearIfNan.GetCaretPos t2 w2
    simp only [e3, pure, Except.pure]
    exact ⟨_, rfl, w3⟩

theorem DelButton_Click_within (this : CalculatorForm)
    (hb : this.InputTextBox.SelectionStart ≤ this.InputTextBox.Text.length) :
    ∃ s, this.DelButton_Click = Except.ok s ∧
      s.InputTextBox.SelectionStart ≤ s.InputTextBox.Text.length := by
  obtain ⟨⟨text, start, len⟩, lr, ops, com, baud, en, foc, dbg, msgs⟩ := this
  simp only at hb
  unfold DelButton_Click
  by_cases hsel : IsNullOrEmpty (TextBox.SelectedText ⟨text, start, len⟩) = true
  · by_cases hc : 0 < start
    · have hpos : 0 < text.length := by omega
      have h1 : ((start : Int) - 1).toNat = start - 1 := by omega
      have h2 : start - 1 + 1 = start := by omega
      have h3 : ¬ (text.length < start) := by omega
      have h4 : ¬ (min (start - 1) text.length + (text.length - start) < start - 1) := by
        omega
      have h5 : ¬ ((start : Int) - 1 < 0) := by omega
      have h6 : ¬ ((text.length : Int) < (start : Int) - 1 + 1) := by omega
      simp [hsel, GetCaretPos, hc, hpos, Remove, h1, h2, h3, h4, h5, h6, TextBox.setText,
        TextBox.setSelectionStart, bind, Except.bind, pure, Except.pure, Focus]
      omega
    · have h0 : start = 0 := by omega
      subst h0
      simp [hsel, GetCaretPos, bind, Except.bind, pure, Except.pure, Focus]
  · simp only [hsel, bind, Except.bind, pure, Except.pure, Focus]
    exact ⟨_, rfl, setSelectedText_within _ _ hb⟩

theorem StringIndexOf_ge (s value : Str) : -1 ≤ StringIndexOf s value := by
  induction s with
  | nil => unfold StringIndexOf; split <;> omega
  | cons c cs ih =>
    unfold StringIndexOf
    split
    · omega
    · simp only []
      split <;> omega

theorem SelectedIndexChanged_within (this : CalculatorForm) (item : Option Str)
    (hb : this.InputTextBox.SelectionStart ≤ this.InputTextBox.Text.length) :
    ∃ s, this.OperationsListBox_SelectedIndexChanged item = Except.ok s ∧
      s.InputTextBox.SelectionStart ≤ s.InputTextBox.Text.length := by
  unfold OperationsListBox_SelectedIndexChanged
  cases item with
  | none => exact ⟨_, rfl, hb⟩
  | some operation =>
    simp only []
    have hge := StringIndexOf_ge operation ['=']
    split
    · rename_i hcond
      have h1 : ¬ (StringIndexOf operation ['='] + 1 < 0 ∨
          (operation.length : Int) < StringIndexOf operation ['='] + 1) := by omega
      simp only [Substring, h1, if_false, bind, Except.bind, pure, Except.pure]
      exact ⟨_, rfl, setSelectedText_within _ _ hb⟩
    · exact ⟨_, rfl, hb⟩

theorem SendButton_Click_within {Double : Type} (rt : Runtime Double) (os : Win32)
    (form : CalculatorForm) (r : SendResult)
    (hb : form.InputTextBox.SelectionStart ≤ form.InputTextBox.Text.length)
    (hret : form.SendButton_Click rt os = Except.ok r) :
    r.form.InputTextBox.SelectionStart ≤ r.form.InputTextBox.Text.length := by
  rcases SendButton_Click_cases rt os form with
    hf | ⟨opened, ho, hw | ⟨written, response, hw, hr, hn | ⟨hn, ⟨text, hc⟩ | ⟨e2, hc, he⟩⟩⟩⟩
  · obtain ⟨r2, h, -, -, h1, -⟩ := SendButton_Click_open_failed rt os form hf
    rw [hret] at h
    obtain rfl := Except.ok.inj h
    rw [h1]; exact hb
  · obtain ⟨r2, hd, h, -, -, -, h1, -⟩ :=
      SendButton_Click_write_failed rt os form opened ho hw
    rw [hret] at h
    obtain rfl := Except.ok.inj h
    rw [h1]; exact hb
  · obtain ⟨r2, hd, h, -, -, -, h1, -⟩ :=
      SendButton_Click_syntax_error rt os form opened written response ho hw hr hn
    rw [hret] at h
    obtain rfl := Except.ok.inj h
    rw [h1]; exact hb
  · obtain ⟨r2, hd, h, -, -, -, h1, -⟩ :=
      SendButton_Click_success rt os form opened written response text ho hw hr hn hc
    rw [hret] at h
    obtain rfl := Except.ok.inj h
    rw [h1]; exact Nat.le_refl _
  · rw [SendButton_Click_raised rt os form opened written response e2 ho hw hr hn hc he] at hret
    cases hret

/-- C17: the caret lies within the buffer text in the state after loading, and from every
state where it does, each operation of the editor returns a state where it does: a click on
any token button, the delete button, the clear button, `SetCaretPos` at any integer
position, the selection of a history item (or of none), and an evaluation that returns,
whether it failed (buffer untouched) or succeeded (buffer reset). -/
theorem caret_stays_within_text :
    initial.InputTextBox.SelectionStart ≤ initial.InputTextBox.Text.length ∧
    ∀ s : CalculatorForm, s.InputTextBox.SelectionStart ≤ s.InputTextBox.Text.length →
      (∀ btn, ∃ s', s.CalculatorButton_Click btn = Except.ok s' ∧
        s'.InputTextBox.SelectionStart ≤ s'.InputTextBox.Text.length) ∧
      (∃ s', s.DelButton_Click = Except.ok s' ∧
        s'.InputTextBox.SelectionStart ≤ s'.InputTextBox.Text.length) ∧
      (s.ClearButton_Click.InputTextBox.SelectionStart ≤
        s.ClearButton_Click.InputTextBox.Text.length) ∧
      (∀ p focus, ∃ s', s.SetCaretPos p focus = Except.ok s' ∧
        s'.InputTextBox.SelectionStart ≤ s'.InputTextBox.Text.length) ∧
      (∀ item, ∃ s', s.OperationsListBox_SelectedIndexChanged item = Except.ok s' ∧
        s'.InputTextBox.SelectionStart ≤ s'.InputTextBox.Text.length) ∧
      (∀ (Double : Type) (rt : Runtime Double) (os : Win32) (r : SendResult),
        s.SendButton_Click rt os = Except.ok r →
        r.form.InputTextBox.SelectionStart ≤ r.form.InputTextBox.Text.length) := by
  refine ⟨Nat.le_refl _, ?_⟩
  intro s hb
  exact ⟨fun btn => CalculatorButton_Click_within s btn hb,
    DelButton_Click_within s hb,
    Nat.le_refl _,
    fun p focus => SetCaretPos_within s p focus hb,
    fun item => SelectedIndexChanged_within s item hb,
    fun _ rt os r hret => SendButton_Click_within rt os s r hb hret⟩

/-- C17 on the buffer `"12"` with the caret at 2: a caret request far beyond the text ends
at the end of the text, position 2. -/
theorem caret_stays_within_text_witness :
    ∃ s', (withBuffer ['1', '2'] 2 0 []).SetCaretPos 99 false = Except.ok s' ∧
      s'.InputTextBox.SelectionStart ≤ s'.InputTextBox.Text.length ∧
      s'.InputTextBox.SelectionStart = 2 := by
  obtain ⟨s', h, hw⟩ :=
    (caret_stays_within_text.2 (withBuffer ['1', '2'] 2 0 []) (by decide)).2.2.2.1 99 false
  refine ⟨s', h, hw, ?_⟩
  have h2 : (withBuffer ['1', '2'] 2 0 []).SetCaretPos 99 false =
      Except.ok { withBuffer ['1', '2'] 2 0 [] with
        InputTextBox := { Text := ['1', '2'], SelectionStart := 2, SelectionLength := 0 } } :=
    rfl
  rw [h2] at h
  obtain rfl := Except.ok.inj h
  rfl

/-! ## The last result is only written by a successful evaluation -/

theorem SetCaretPos_LastResult (this : CalculatorForm) (newIndex : Int) (focus : Bool) :
    ∃ s, this.SetCaretPos newIndex focus = Except.ok s ∧ s.LastResult = this.LastResult := by
  by_cases h : newIndex < 0
  · rw [SetCaretPos_neg _ _ _ h]
    exact ⟨_, rfl, rfl⟩
  · rw [SetCaretPos_nonneg _ _ _ (by omega)]
    exact ⟨_, rfl, rfl⟩

theorem ClearIfNan_LastResult (this : CalculatorForm) :
    this.ClearIfNan.LastResult = this.LastResult := by
  unfold ClearIfNan
  split <;> rfl

theorem LeftOperand_LastResult (this : CalculatorForm) (cachedCaretPos : Int) (t : Str) :
    ∃ r, this.LeftOperand cachedCaretPos t = Except.ok r ∧
      r.2.LastResult = this.LastResult := by
  unfold LeftOperand
  split
  · split
    · split
      · obtain ⟨s, hs, hw⟩ := SetCaretPos_LastResult this
          (cachedCaretPos + (['0'] ++ t : Str).length) false
        simp only [Insert, Nat.zero_le, ↓reduceIte, List.take_zero, List.nil_append,
          List.drop_zero, pure, Except.pure, bind, Except.bind, hs]
        exact ⟨_, rfl, hw⟩
      · obtain ⟨s, hs, hw⟩ := SetCaretPos_LastResult this
          (cachedCaretPos + (this.LastResult ++ t : Str).length) false
        simp only [Insert, Nat.zero_le, ↓reduceIte, List.take_zero, List.nil_append,
          List.drop_zero, pure, Except.pure, bind, Except.bind, hs]
        exact ⟨_, rfl, hw⟩
    · exact ⟨_, rfl, rfl⟩
  · exact ⟨_, rfl, rfl⟩

theorem InsertText_LastResult (this : CalculatorForm) (t : Str) :
    ∃ r, this.InsertText t = Except.ok r ∧ r.2.LastResult = this.LastResult := by
  unfold InsertText
  split
  · obtain ⟨s, hs, hw⟩ := SetCaretPos_LastResult
      { this with InputTextBox := this.InputTextBox.setSelectedText (t ++ ['(', ')']) }
      (((this.InputTextBox.setSelectedText (t ++ ['(', ')'])).SelectionStart : Int) - 1) false
    simp only [bind, Except.bind, hs, pure, Except.pure]
    exact ⟨_, rfl, hw⟩
  · split
    · obtain ⟨s, hs, hw⟩ := SetCaretPos_LastResult
        { this with InputTextBox := this.InputTextBox.setSelectedText t }
        (((this.InputTextBox.setSelectedText t).SelectionStart : Int) - 1) false
      simp only [bind, Except.bind, hs, pure, Except.pure]
      exact ⟨_, rfl, hw⟩
    · exact ⟨_, rfl, rfl⟩

theorem AdjustCaret_LastResult (this : CalculatorForm) (isPiButton : Bool)
    (cachedCaretPos : Int) (t : Str) :
    ∃ s, this.AdjustCaret isPiButton cachedCaretPos t = Except.ok s ∧
      s.LastResult = this.LastResult := by
  unfold AdjustCaret
  split
  · exact SetCaretPos_LastResult _ _ _
  · split
    · exact SetCaretPos_LastResult _ _ _
    · exact ⟨_, rfl, rfl⟩

theorem CalculatorButton_Click_LastResult (this : CalculatorForm) (btn : Button) :
    ∃ s, this.CalculatorButton_Click btn = Except.ok s ∧ s.LastResult = this.LastResult := by
  unfold CalculatorButton_Click
  have h0 := ClearIfNan_LastResult this
  cases ht : this.ClearIfNan.TextToInsert btn with
  | none =>
    simp only [ht]
    exact ⟨_, rfl, h0⟩
  | some t =>
    obtain ⟨r1, e1, w1⟩ := LeftOperand_LastResult this.ClearIfNan this.ClearIfNan.GetCaretPos t
    obtain ⟨t1, s1⟩ := r1
    simp only [ht, e1, bind, Except.bind]
    obtain ⟨r2, e2, w2⟩ := InsertText_LastResult s1
      (if (decide (btn = Button.PiButton)) = true then ['3', '.', '1', '4', '1', '5', '9', '3']
        else t1)
    obtain ⟨t2, s2⟩ := r2
    simp only [e2]
    obtain ⟨s3, e3, w3⟩ := AdjustCaret_LastResult s2 (decide (btn = Button.PiButton))
      this.ClearIfNan.GetCaretPos t2
    simp only [e3, pure, Except.pure]
    refine ⟨_, rfl, ?_⟩
    simp only [Focus]
    rw [w3, w2, w1, h0]

theorem DelButton_Click_LastResult (this s : CalculatorForm)
    (h : this.DelButton_Click = Except.ok s) : s.LastResult = this.LastResult := by
  unfold DelButton_Click at h
  split at h
  · simp only [bind, Except.bind, pure, Except.pure] at h
    obtain rfl := Except.ok.inj h
    rfl
  · simp only [] at h
    split at h
    · cases hr : Remove this.InputTextBox.Text (this.GetCaretPos - 1) 1 with
      | error e => simp [hr, bind, Except.bind] at h
      | ok text =>
        simp only [hr, bind, Except.bind] at h
        cases hs : TextBox.setSelectionStart (this.InputTextBox.setText text)
            (this.GetCaretPos - 1) with
        | error e => simp [hs] at h
        | ok tb =>
          simp only [hs, pure, Except.pure] at h
          obtain rfl := Except.ok.inj h
          rfl
    · simp only [bind, Except.bind, pure, Except.pure] at h
      obtain rfl := Except.ok.inj h
      rfl

theorem SelectedIndexChanged_LastResult (this : CalculatorForm) (item : Option Str) :
    ∃ s, this.OperationsListBox_SelectedIndexChanged item = Except.ok s ∧
      s.LastResult = this.LastResult := by
  unfold OperationsListBox_SelectedIndexChanged
  cases item with
  | none => exact ⟨_, rfl, rfl⟩
  | some operation =>
    simp only []
    have hge := StringIndexOf_ge operation ['=']
    split
    · rename_i hcond
      have h1 : ¬ (StringIndexOf operation ['='] + 1 < 0 ∨
          (operation.length : Int) < StringIndexOf operation ['='] + 1) := by omega
      simp only [Substring, h1, if_false, bind, Except.bind, pure, Except.pure]
      exact ⟨_, rfl, rfl⟩
    · exact ⟨_, rfl, rfl⟩

theorem SendButton_Click_LastResult {Double : Type} (rt : Runtime Double) (os : Win32)
    (form : CalculatorForm) (r : SendResult)
    (hret : form.SendButton_Click rt os = Except.ok r) :
    (∀ e, r.outcome = Except.error e → r.form.LastResult = form.LastResult) ∧
    (∀ text, r.outcome = Except.ok text → r.form.LastResult = text) := by
  rcases SendButton_Click_cases rt os form with
    hf | ⟨opened, ho, hw | ⟨written, response, hw, hr, hn | ⟨hn, ⟨text2, hc⟩ | ⟨e2, hc, he⟩⟩⟩⟩
  · obtain ⟨r2, h, ho2, -, -, h2, -⟩ := SendButton_Click_open_failed rt os form hf
    rw [hret] at h
    obtain rfl := Except.ok.inj h
    exact ⟨fun _ _ => h2, fun t ht => by rw [ho2] at ht; cases ht⟩
  · obtain ⟨r2, hd, h, ho2, -, -, -, h2, -⟩ :=
      SendButton_Click_write_failed rt os form opened ho hw
    rw [hret] at h
    obtain rfl := Except.ok.inj h
    exact ⟨fun _ _ => h2, fun t ht => by rw [ho2] at ht; cases ht⟩
  · obtain ⟨r2, hd, h, ho2, -, -, -, h2, -⟩ :=
      SendButton_Click_syntax_error rt os form opened written response ho hw hr hn
    rw [hret] at h
    obtain rfl := Except.ok.inj h
    exact ⟨fun _ _ => h2, fun t ht => by rw [ho2] at ht; cases ht⟩
  · obtain ⟨r2, hd, h, ho2, -, -, -, hl, -⟩ :=
      SendButton_Click_success rt os form opened written response text2 ho hw hr hn hc
    rw [hret] at h
    obtain rfl := Except.ok.inj h
    refine ⟨fun e he => (by rw [ho2] at he; cases he), fun t ht => ?_⟩
    rw [ho2] at ht
    obtain rfl := Except.ok.inj ht
    exact hl
  · rw [SendButton_Click_raised rt os form opened written response e2 ho hw hr hn hc he] at hret
    cases hret

/-- C21: no editing operation changes the last result.  From every state, a click on any
token button returns a state with the same last result, and so do the clear button,
`SetCaretPos` at any position and the selection of any history item (or of none); the delete
button returns whenever the caret lies within the text, and a state it returns has the
same last result.  An evaluation that returns with a failure leaves the last result as it
was; one that returns with success has written its result text there. -/
theorem editing_keeps_last_result (form : CalculatorForm) :
    (∀ btn, ∃ s, form.CalculatorButton_Click btn = Except.ok s ∧
      s.LastResult = form.LastResult) ∧
    ((form.InputTextBox.SelectionStart ≤ form.InputTextBox.Text.length →
        ∃ s, form.DelButton_Click = Except.ok s) ∧
      ∀ s, form.DelButton_Click = Except.ok s → s.LastResult = form.LastResult) ∧
    form.ClearButton_Click.LastResult = form.LastResult ∧
    (∀ p focus, ∃ s, form.SetCaretPos p focus = Except.ok s ∧
      s.LastResult = form.LastResult) ∧
    (∀ item, ∃ s, form.OperationsListBox_SelectedIndexChanged item = Except.ok s ∧
      s.LastResult = form.LastResult) ∧
    (∀ (Double : Type) (rt : Runtime Double) (os : Win32) (r : SendResult),
      form.SendButton_Click rt os = Except.ok r →
      (∀ e, r.outcome = Except.error e → r.form.LastResult = form.LastResult) ∧
      (∀ text, r.outcome = Except.ok text → r.form.LastResult = text)) := by
  refine ⟨fun btn => CalculatorButton_Click_LastResult form btn, ⟨fun hb => ?_,
    fun s h => DelButton_Click_LastResult form s h⟩, rfl,
    fun p focus => SetCaretPos_LastResult form p focus,
    fun item => SelectedIndexChanged_LastResult form item,
    fun _ rt os r hret => SendButton_Click_LastResult rt os form r hret⟩
  obtain ⟨s, hs, -⟩ := DelButton_Click_within form hb
  exact ⟨s, hs⟩

/-- C21 on the buffer `"12"` with the last result `"7"`: the delete button leaves the buffer
`"1"` and the last result `"7"`. -/
theorem editing_keeps_last_result_witness :
    (withBuffer ['1', '2'] 2 0 ['7']).DelButton_Click =
      Except.ok { withBuffer ['1'] 1 0 ['7'] with InputFocused := true } ∧
    ({ withBuffer ['1'] 1 0 ['7'] with InputFocused := true } : CalculatorForm).LastResult =
      (withBuffer ['1', '2'] 2 0 ['7']).LastResult :=
  ⟨rfl, (editing_keeps_last_result (withBuffer ['1', '2'] 2 0 ['7'])).2.1.2 _ rfl⟩

/-! ## Closing the session (`Bifrost::Close`) -/

/-- C22: `Close` is safe to repeat.  On a bridge that was never opened, and on the bridge
that a failed `Open` leaves behind, `Close` changes nothing: the state (handle and system
calls made) is the same, so no `CloseHandle` is made.  On every bridge a second `Close`
leaves the state of the first, which holds no open handle. -/
theorem close_is_idempotent_safe :
    Bifrost.new.Close = Bifrost.new ∧
    (∀ (os : Win32) (this : Bifrost) (port : Str) (baudrate : Nat),
      (this.Open os port baudrate).1 = false →
      (this.Open os port baudrate).2.hSerial = none ∧
      (this.Open os port baudrate).2.Close = (this.Open os port baudrate).2) ∧
    (∀ this : Bifrost, this.Close.hSerial = none ∧ this.Close.Close = this.Close ∧
      (this.hSerial = none → this.Close = this)) := by
  refine ⟨rfl, ?_, ?_⟩
  · intro os this port baudrate h
    unfold Bifrost.Open at h ⊢
    cases hc : os.CreateFileW port with
    | none => simp [Bifrost.Close]
    | some hd =>
      simp only [hc] at h ⊢
      by_cases h1 : os.GetCommState hd = true
      · by_cases h2 : os.SetCommState hd baudrate = true
        · by_cases h3 : os.SetCommTimeouts hd = true
          · simp [h1, h2, h3] at h
          · simp [h1, h2, h3, Bifrost.Close]
        · simp [h1, h2, Bifrost.Close]
      · simp [h1, Bifrost.Close]
  · intro this
    obtain ⟨hs, calls⟩ := this
    cases hs with
    | none => simp [Bifrost.Close]
    | some hd => simp [Bifrost.Close]

/-- C22 on a port that opens but refuses its settings: `Open` fails and has released the
handle itself; the `Close` that follows changes nothing. -/
theorem close_is_idempotent_safe_witness :
    (Bifrost.new.Open
      { deviceRejectingWrites with GetCommState := fun _ => false } ['C', 'O', 'M', '4']
      9600).1 = false ∧
    (Bifrost.new.Open
      { deviceRejectingWrites with GetCommState := fun _ => false } ['C', 'O', 'M', '4']
      9600).2.Close =
      { hSerial := none
        Calls := [SysCall.CreateFileW ['C', 'O', 'M', '4'], SysCall.GetCommState 1,
          SysCall.CloseHandle 1] } :=
  ⟨rfl, ((close_is_idempotent_safe.2.1
    { deviceRejectingWrites with GetCommState := fun _ => false } Bifrost.new
    ['C', 'O', 'M', '4'] 9600 rfl).2).trans rfl⟩

/-! ## An empty response, and the buffer after a success -/

/-- C23: when the port opens, the request is written and the read gives no bytes (a timeout,
or a read that failed), the evaluation succeeds with the empty text as its result: there is
no sentinel in the empty response, and the number conversion of the empty text raises a
format error, which the handler catches.  The empty text becomes the last result and the
history gets the entry `e ++ " = "`. -/
theorem empty_response_is_success {Double : Type} (rt : Runtime Double) (os : Win32)
    (form : CalculatorForm) (opened written : Bifrost)
    (hrt : rt.ToDouble [] = Except.error Exception.Format)
    (hopen : Bifrost.new.Open os form.GetTargetCom
      ((form.GetTargetBaudrate rt) % 2 ^ 32).toNat = (true, opened))
    (hwrite : opened.WriteData os (ToLower (Trim form.GetCurrentExpression) ++ ['\n']) =
      (true, written))
    (hread : (written.ReadData os readBudget).1 = []) :
    ∃ r, form.SendButton_Click rt os = Except.ok r ∧
      r.outcome = Except.ok [] ∧
      r.form.LastResult = [] ∧
      r.form.OperationsListBox =
        (form.InputTextBox.Text ++ [' ', '=', ' ']) :: form.OperationsListBox := by
  obtain ⟨r, hd, h, ho, -, -, -, hl, hh⟩ :=
    SendButton_Click_success rt os form opened written [] [] hopen hwrite hread (by decide)
      (Or.inr ⟨hrt, rfl⟩)
  refine ⟨r, h, ho, hl, ?_⟩
  rw [hh]
  simp [GetCurrentExpression]

/-- C23 on a device that answers with no bytes, for the buffer `"1+1"`. -/
theorem empty_response_is_success_witness :
    ∃ r, (withBuffer ['1', '+', '1'] 3 0 ['7']).SendButton_Click decimalRuntime
        (deviceAnswering []) = Except.ok r ∧
      r.outcome = Except.ok [] ∧
      r.form.LastResult = [] ∧
      r.form.OperationsListBox = [['1', '+', '1', ' ', '=', ' ']] :=
  empty_response_is_success decimalRuntime (deviceAnswering [])
    (withBuffer ['1', '+', '1'] 3 0 ['7']) _ _ rfl rfl rfl rfl

/-- C24, as stated, fails: on the buffer `"1+1"` and the response `"2"` the evaluation
succeeds with the result text `"2"`, which goes into the history, and the buffer is left
empty, not showing `"2"`. -/
theorem buffer_empty_after_success :
    ∃ r, (withBuffer ['1', '+', '1'] 3 0 []).SendButton_Click decimalRuntime
        (deviceAnswering ['2']) = Except.ok r ∧
      r.outcome = Except.ok ['2'] ∧
      r.form.OperationsListBox = [['1', '+', '1', ' ', '=', ' ', '2']] ∧
      r.form.InputTextBox.Text = [] ∧
      r.form.InputTextBox.Text ≠ ['2'] :=
  ⟨_, rfl, rfl, rfl, rfl, by decide⟩

/-- C24, amended: after an evaluation that returns with success and result text `text`, the
buffer is empty with the caret at 0 and nothing selected; the result text is kept as the
last result and in the entry `e ++ " = " ++ text` at the front of the history.  So the
buffer text equals the result text only when the result text is empty. -/
theorem success_clears_buffer {Double : Type} (rt : Runtime Double) (os : Win32)
    (form : CalculatorForm) (r : SendResult) (text : Str)
    (hret : form.SendButton_Click rt os = Except.ok r)
    (hsucc : r.outcome = Except.ok text) :
    r.form.InputTextBox = { Text := [], SelectionStart := 0, SelectionLength := 0 } ∧
    r.form.LastResult = text ∧
    r.form.OperationsListBox.head? = some (form.InputTextBox.Text ++ [' ', '=', ' '] ++ text) ∧
    (r.form.InputTextBox.Text = text ↔ text = []) := by
  rcases SendButton_Click_cases rt os form with
    hf | ⟨opened, ho, hw | ⟨written, response, hw, hr, hn | ⟨hn, ⟨text2, hc⟩ | ⟨e2, hc, he⟩⟩⟩⟩
  · obtain ⟨r2, h, ho2, -⟩ := SendButton_Click_open_failed rt os form hf
    rw [hret] at h
    obtain rfl := Except.ok.inj h
    rw [hsucc] at ho2
    cases ho2
  · obtain ⟨r2, hd, h, ho2, -⟩ := SendButton_Click_write_failed rt os form opened ho hw
    rw [hret] at h
    obtain rfl := Except.ok.inj h
    rw [hsucc] at ho2
    cases ho2
  · obtain ⟨r2, hd, h, ho2, -⟩ :=
      SendButton_Click_syntax_error rt os form opened written response ho hw hr hn
    rw [hret] at h
    obtain rfl := Except.ok.inj h
    rw [hsucc] at ho2
    cases ho2
  · obtain ⟨r2, hd, h, ho2, -, -, hb, hl, hh⟩ :=
      SendButton_Click_success rt os form opened written response text2 ho hw hr hn hc
    rw [hret] at h
    obtain rfl := Except.ok.inj h
    rw [hsucc] at ho2
    obtain rfl := Except.ok.inj ho2
    refine ⟨hb, hl, ?_, ?_⟩
    · rw [hh]; rfl
    · rw [hb]
      exact ⟨fun h => h.symm, fun h => h.symm⟩
  · rw [SendButton_Click_raised rt os form opened written response e2 ho hw hr hn hc he] at hret
    cases hret

/-- C24, amended, on the buffer `"7/2"` and the response `"3.5"`: the buffer is empty, the
last result is `"3.500000"` and the history starts with `"7/2 = 3.500000"`. -/
theorem success_clears_buffer_witness :
    ∃ r, (withBuffer ['7', '/', '2'] 3 0 []).SendButton_Click decimalRuntime
        (deviceAnswering ['3', '.', '5']) = Except.ok r ∧
      r.form.InputTextBox = { Text := [], SelectionStart := 0, SelectionLength := 0 } ∧
      r.form.LastResult = ['3', '.', '5', '0', '0', '0', '0', '0'] ∧
      r.form.OperationsListBox.head? =
        some (['7', '/', '2'] ++ [' ', '=', ' '] ++ ['3', '.', '5', '0', '0', '0', '0', '0']) ∧
      (r.form.InputTextBox.Text = ['3', '.', '5', '0', '0', '0', '0', '0'] ↔
        ['3', '.', '5', '0', '0', '0', '0', '0'] = ([] : Str)) :=
  ⟨_, rfl,
    success_clears_buffer decimalRuntime (deviceAnswering ['3', '.', '5'])
      (withBuffer ['7', '/', '2'] 3 0 []) _ ['3', '.', '5', '0', '0', '0', '0', '0'] rfl rfl⟩

/-! ## The recall token, the pi token, and the other tokens -/

/-- C25, as stated, fails: on the buffer `"nan"` with the caret at 3 and no last result, the
recall button leaves the buffer empty with the caret at 0, not as it was. -/
theorem recall_clears_sentinel_buffer :
    (withBuffer ['n', 'a', 'n'] 3 0 []).LastResult = [] ∧
    ∃ s, (withBuffer ['n', 'a', 'n'] 3 0 []).CalculatorButton_Click Button.AnsButton =
        Except.ok s ∧
      s.InputTextBox.Text = [] ∧ s.InputTextBox.SelectionStart = 0 ∧
      s.InputTextBox.Text ≠ (withBuffer ['n', 'a', 'n'] 3 0 []).InputTextBox.Text ∧
      s.InputTextBox.SelectionStart ≠
        (withBuffer ['n', 'a', 'n'] 3 0 []).InputTextBox.SelectionStart :=
  ⟨rfl, _, rfl, rfl, rfl, by decide, by decide⟩

/-- C25, amended: while there is no last result, a click on the recall button inserts
nothing.  On a buffer whose text does not show the sentinel it changes nothing at all: the
state after the click is the state before it (text, caret and selection included).  On a
buffer whose text shows the sentinel in any letter case the buffer is cleared: empty text,
caret at 0. -/
theorem recall_without_result_inserts_nothing (form : CalculatorForm)
    (hl : form.LastResult = []) :
    ∃ s, form.CalculatorButton_Click Button.AnsButton = Except.ok s ∧
      (Contains (ToLower form.InputTextBox.Text) nan = false → s = form) ∧
      (Contains (ToLower form.InputTextBox.Text) nan = true →
        s = { form with
          InputTextBox := { Text := [], SelectionStart := 0, SelectionLength := 0 } }) := by
  have h0 : form.ClearIfNan.TextToInsert Button.AnsButton = none := by
    simp [TextToInsert, ClearIfNan_LastResult, IsNullOrEmpty, hl]
  unfold CalculatorButton_Click
  simp only [h0]
  exact ⟨_, rfl, fun h => ClearIfNan_of_not_nan _ h, fun h => ClearIfNan_of_nan _ h⟩

/-- C25, amended, on the buffer `"12"` with `"2"` selected and no last result: the recall
button leaves text, caret and selection as they were. -/
theorem recall_without_result_inserts_nothing_witness :
    ∃ s, (withBuffer ['1', '2'] 1 1 []).CalculatorButton_Click Button.AnsButton =
        Except.ok s ∧
      s = withBuffer ['1', '2'] 1 1 [] := by
  obtain ⟨s, h, hs, -⟩ := recall_without_result_inserts_nothing (withBuffer ['1', '2'] 1 1 []) rfl
  exact ⟨s, h, hs (by decide)⟩

/-- C26, as stated, fails: on the buffer `"nan"` with the caret at 3, the pi button leaves
the text `"3.141593"` with the caret at 8, not at 3 + 8, and the literal does not stand at
position 3 of the old text. -/
theorem pi_into_sentinel_buffer :
    (withBuffer ['n', 'a', 'n'] 3 0 []).InputTextBox.SelectionStart = 3 ∧
    ∃ s, (withBuffer ['n', 'a', 'n'] 3 0 []).CalculatorButton_Click Button.PiButton =
        Except.ok s ∧
      s.InputTextBox.Text = ['3', '.', '1', '4', '1', '5', '9', '3'] ∧
      s.InputTextBox.SelectionStart = 8 ∧
      s.InputTextBox.SelectionStart ≠ 3 + 8 :=
  ⟨rfl, _, rfl, rfl, rfl, by decide⟩

/-- C26, amended: the pi button replaces the selection by the literal `"3.141593"`: the text
becomes `pre ++ "3.141593" ++ post`, where `pre` and `post` are the parts of the old text
before and after the selection (both empty when the old text showed the sentinel and was
cleared), and the caret stands right after the literal, at `|pre| + 8`.  On a buffer that
does not show the sentinel that is the caret before the click plus 8. -/
theorem pi_inserted_at_caret (form : CalculatorForm) (pre post : Str)
    (hbounds : form.InputTextBox.InBounds)
    (hpre : pre = if Contains (ToLower form.InputTextBox.Text) nan then []
      else form.InputTextBox.Text.take form.InputTextBox.SelectionStart)
    (hpost : post = if Contains (ToLower form.InputTextBox.Text) nan then []
      else form.InputTextBox.Text.drop
        (form.InputTextBox.SelectionStart + form.InputTextBox.SelectionLength)) :
    ∃ s, form.CalculatorButton_Click Button.PiButton = Except.ok s ∧
      s.InputTextBox.Text = pre ++ ['3', '.', '1', '4', '1', '5', '9', '3'] ++ post ∧
      s.InputTextBox.SelectionStart = pre.length + 8 ∧
      s.InputTextBox.SelectionLength = 0 ∧
      (Contains (ToLower form.InputTextBox.Text) nan = false →
        s.InputTextBox.SelectionStart = form.InputTextBox.SelectionStart + 8) := by
  have htext : form.ClearIfNan.TextToInsert Button.PiButton = some ['π'] := by
    simp [TextToInsert, Button.Text]
  have h1 : ToLower ['π'] ∉ MathOperators := by decide
  have h2 : ToLower ['3', '.', '1', '4', '1', '5', '9', '3'] ∉ MathFunctions := by decide
  have hb2 : form.ClearIfNan.InputTextBox.InBounds := by
    unfold ClearIfNan
    split
    · simp [TextBox.InBounds, TextBox.setText]
    · exact hbounds
  have hlen : (form.ClearIfNan.InputTextBox.Text.take
      form.ClearIfNan.InputTextBox.SelectionStart).length =
        form.ClearIfNan.InputTextBox.SelectionStart := by
    simp only [TextBox.InBounds] at hb2
    rw [List.length_take_of_le (by omega)]
  have hpre2 : pre = form.ClearIfNan.InputTextBox.Text.take
      form.ClearIfNan.InputTextBox.SelectionStart := by
    rw [hpre]; unfold ClearIfNan; split <;> simp [TextBox.setText]
  have hpost2 : post = form.ClearIfNan.InputTextBox.Text.drop
      (form.ClearIfNan.InputTextBox.SelectionStart +
        form.ClearIfNan.InputTextBox.SelectionLength) := by
    rw [hpost]; unfold ClearIfNan; split <;> simp [TextBox.setText]
  unfold CalculatorButton_Click
  simp only [htext, decide_True, if_true, LeftOperand_other _ _ _ (Or.inl h1), bind,
    Except.bind, InsertText_plain _ _ h2 (by decide)]
  rw [AdjustCaret_ok _ _ _ _ (by simp [GetCaretPos]) rfl]
  have hne : ¬ ((form.ClearIfNan.InputTextBox.Text.take
      form.ClearIfNan.InputTextBox.SelectionStart ++
      ['3', '.', '1', '4', '1', '5', '9', '3'] ++
      form.ClearIfNan.InputTextBox.Text.drop (form.ClearIfNan.InputTextBox.SelectionStart +
        form.ClearIfNan.InputTextBox.SelectionLength)).length = 1) := by
    simp only [List.length_append, List.length_cons, List.length_nil]
    omega
  have hcaret : min ((form.ClearIfNan.GetCaretPos : Int) +
      ((['3', '.', '1', '4', '1', '5', '9', '3'] : Str).length : Int)).toNat
      (form.ClearIfNan.InputTextBox.Text.take
        form.ClearIfNan.InputTextBox.SelectionStart ++
        ['3', '.', '1', '4', '1', '5', '9', '3'] ++
        form.ClearIfNan.InputTextBox.Text.drop (form.ClearIfNan.InputTextBox.SelectionStart +
          form.ClearIfNan.InputTextBox.SelectionLength)).length =
      form.ClearIfNan.InputTextBox.SelectionStart + 8 := by
    simp only [GetCaretPos, List.length_append, List.length_cons, List.length_nil, hlen]
    omega
  refine ⟨_, rfl, ?_, ?_, rfl, ?_⟩
  · simp [Focus, hpre2, hpost2]
  · simp only [Focus, hne, if_false, if_true, hcaret, hpre2, hlen]
  · intro hn
    simp only [Focus, hne, if_false, if_true, hcaret]
    rw [ClearIfNan_of_not_nan _ hn]

/-- C26, amended, on the buffer `"2*r"` with `"r"` selected: the text becomes `"2*3.141593"`
and the caret stands at 10. -/
theorem pi_inserted_at_caret_witness :
    ∃ s, (withBuffer ['2', '*', 'r'] 2 1 []).CalculatorButton_Click Button.PiButton =
        Except.ok s ∧
      s.InputTextBox.Text = ['2', '*'] ++ ['3', '.', '1', '4', '1', '5', '9', '3'] ++ [] ∧
      s.InputTextBox.SelectionStart = (['2', '*'] : Str).length + 8 ∧
      s.InputTextBox.SelectionLength = 0 ∧
      (Contains (ToLower (withBuffer ['2', '*', 'r'] 2 1 []).InputTextBox.Text) nan = false →
        s.InputTextBox.SelectionStart =
          (withBuffer ['2', '*', 'r'] 2 1 []).InputTextBox.SelectionStart + 8) :=
  pi_inserted_at_caret (withBuffer ['2', '*', 'r'] 2 1 []) ['2', '*'] [] (by decide)
    (by decide) (by decide)

theorem take_drop_selection (p sel q : Str) :
    (p ++ sel ++ q).take p.length = p ∧ (p ++ sel ++ q).drop (p.length + sel.length) = q := by
  constructor
  · rw [List.append_assoc, List.take_left]
  · have h : p.length + sel.length = (p ++ sel).length := by simp
    rw [h, List.drop_left]

/-! ## The caret after the insertion, and lines 89-96 -/

theorem Contains_iff_occurs (s pat : Str) : Contains s pat = true ↔ pat <:+: s := by
  induction s with
  | nil =>
    cases pat <;> simp [Contains]
  | cons c cs ih =>
    unfold Contains
    rw [Bool.or_eq_true, ih, List.infix_cons_iff, List.isPrefixOf_iff_prefix]

theorem Contains_false_of_part (s t pat : Str) (hst : s <:+: t)
    (h : Contains t pat = false) : Contains s pat = false := by
  cases hc : Contains s pat with
  | false => rfl
  | true =>
    have h2 : Contains t pat = true :=
      (Contains_iff_occurs t pat).mpr (((Contains_iff_occurs s pat).mp hc).trans hst)
    rw [h] at h2
    cases h2

theorem Trim_is_part (s : Str) : Trim s <:+: s := by
  rw [Trim_eq_rdropWhile]
  exact (List.rdropWhile_prefix _ _).isInfix.trans (List.dropWhile_suffix _).isInfix

theorem ToLower_part (s t : Str) (h : s <:+: t) : ToLower s <:+: ToLower t := by
  obtain ⟨a, b, rfl⟩ := h
  exact ⟨ToLower a, ToLower b, by simp [ToLower]⟩

theorem Trim_no_sentinel (s : Str) (h : Contains (ToLower s) nan = false) :
    Contains (ToLower (Trim s)) nan = false :=
  Contains_false_of_part _ _ _ (ToLower_part _ _ (Trim_is_part s)) h

theorem operator_append_no_sentinel (a op : Str) (hop : ToLower op ∈ MathOperators)
    (h : Contains (ToLower a) nan = false) : Contains (ToLower (a ++ op)) nan = false := by
  cases hc : Contains (ToLower (a ++ op)) nan with
  | false => rfl
  | true =>
    exfalso
    rw [Contains_iff_occurs, ToLower_append] at hc
    have hops : ∀ x ∈ MathOperators, x = [x.headD ' '] ∧ x.headD ' ' ≠ 'n' := by decide
    obtain ⟨hx, hcn⟩ := hops _ hop
    generalize (ToLower op).headD ' ' = c at hx hcn
    rw [hx] at hc
    obtain ⟨s, t, hst⟩ := hc
    rcases List.eq_nil_or_concat t with rfl | ⟨t2, x, rfl⟩
    · rw [List.append_nil] at hst
      have h1 : (s ++ nan).getLast? = (ToLower a ++ [c]).getLast? := by rw [hst]
      simp [nan] at h1
      exact hcn h1.symm
    · rw [List.concat_eq_append, ← List.append_assoc] at hst
      have h1 := (List.append_inj' hst rfl).1
      have h2 : Contains (ToLower a) nan = true :=
        (Contains_iff_occurs _ _).mpr ⟨s, t2, h1⟩
      rw [h] at h2
      cases h2

theorem no_n_no_sentinel (s : Str) (h : ∀ c ∈ s, c.toLower ≠ 'n') :
    Contains (ToLower s) nan = false := by
  cases hc : Contains (ToLower s) nan with
  | false => rfl
  | true =>
    exfalso
    rw [Contains_iff_occurs] at hc
    have h1 : 'n' ∈ ToLower s := hc.subset (by simp [nan])
    simp only [ToLower, List.mem_map] at h1
    obtain ⟨c, hcs, hcn⟩ := h1
    exact h c hcs hcn

theorem digitChar_not_n (n : Nat) (h : n < 10) : (Nat.digitChar n).toLower ≠ 'n' := by
  interval_cases n <;> decide

theorem toDigitsCore_not_n :
    ∀ (fuel n : Nat) (ds : List Char), (∀ c ∈ ds, c.toLower ≠ 'n') →
      ∀ c ∈ Nat.toDigitsCore 10 fuel n ds, c.toLower ≠ 'n' := by
  intro fuel
  induction fuel with
  | zero =>
    intro n ds hds c hc
    simp only [Nat.toDigitsCore] at hc
    exact hds c hc
  | succ fuel ih =>
    intro n ds hds c hc
    have hds2 : ∀ c ∈ Nat.digitChar (n % 10) :: ds, c.toLower ≠ 'n' := by
      intro c hc
      rcases List.mem_cons.mp hc with rfl | h
      · exact digitChar_not_n _ (Nat.mod_lt _ (by decide))
      · exact hds c h
    simp only [Nat.toDigitsCore] at hc
    split at hc
    · exact hds2 c hc
    · exact ih _ _ hds2 c hc

theorem toFixed_no_sentinel (places : Nat) (x : DecimalValue) :
    Contains (ToLower (DecimalValue.toFixed places x)) nan = false := by
  apply no_n_no_sentinel
  have hd : ∀ n : Nat, ∀ c ∈ Nat.toDigits 10 n, c.toLower ≠ 'n' := fun n =>
    toDigitsCore_not_n _ _ [] (fun _ h => by cases h)
  intro c hc
  unfold DecimalValue.toFixed at hc
  simp only [] at hc
  have hsign : ∀ (p : Prop) [Decidable p], ∀ c ∈ (if p then ['-'] else ([] : Str)),
      c.toLower ≠ 'n' := by
    intro p _ c hc
    split at hc
    · rw [List.mem_singleton] at hc
      subst hc
      decide
    · cases hc
  split at hc
  · rcases List.mem_append.mp hc with h | h
    · exact hsign _ c h
    · exact hd _ c h
  · simp only [List.mem_append, List.mem_singleton, List.mem_replicate] at hc
    rcases hc with (((h | h) | h) | h) | h
    · exact hsign _ c h
    · exact hd _ c h
    · subst h; decide
    · rw [h.2]; decide
    · exact hd _ c h

theorem decimalRuntime_no_sentinel (s : Str) (v : DecimalValue)
    (_ : Contains (ToLower s) nan = false) (_ : decimalRuntime.ToDouble s = Except.ok v) :
    Contains (ToLower (if decimalRuntime.Equals v (decimalRuntime.Floor v) then
      decimalRuntime.ToStringF0 v else decimalRuntime.ToStringF6 v)) nan = false := by
  split
  · exact toFixed_no_sentinel 0 v
  · exact toFixed_no_sentinel 6 v

theorem handle_no_sentinel {Double : Type} (rt : Runtime Double)
    (hfmt : ∀ (s : Str) (v : Double), Contains (ToLower s) nan = false →
      rt.ToDouble s = Except.ok v →
      Contains (ToLower (if rt.Equals v (rt.Floor v) then rt.ToStringF0 v
        else rt.ToStringF6 v)) nan = false)
    (s s' : CalculatorForm) (e : Event) (h : s.handle rt e = Except.ok s')
    (hs : Contains (ToLower s.LastResult) nan = false) :
    Contains (ToLower s'.LastResult) nan = false := by
  cases e with
  | Insert btn =>
    obtain ⟨s2, h2, hl⟩ := CalculatorButton_Click_LastResult s btn
    simp only [handle, h2] at h
    obtain rfl := Except.ok.inj h
    rw [hl]; exact hs
  | Delete =>
    simp only [handle] at h
    rw [DelButton_Click_LastResult s s' h]; exact hs
  | Clear =>
    simp only [handle, pure, Except.pure] at h
    obtain rfl := Except.ok.inj h
    exact hs
  | SetCaret pos focus =>
    obtain ⟨s2, h2, hl⟩ := SetCaretPos_LastResult s pos focus
    simp only [handle, h2] at h
    obtain rfl := Except.ok.inj h
    rw [hl]; exact hs
  | SelectHistory index =>
    obtain ⟨s2, h2, hl⟩ := SelectedIndexChanged_LastResult s (s.OperationsListBox.get? index)
    simp only [handle, h2] at h
    obtain rfl := Except.ok.inj h
    rw [hl]; exact hs
  | Evaluate os =>
    simp only [handle, bind, Except.bind] at h
    cases hsend : s.SendButton_Click rt os with
    | error err => simp [hsend] at h
    | ok r =>
      simp only [hsend, pure, Except.pure] at h
      obtain rfl := Except.ok.inj h
      rcases SendButton_Click_cases rt os s with
        hf | ⟨opened, ho, hw | ⟨written, response, hw, hr, hn | ⟨hn, ⟨text, hc⟩ | ⟨e2, hc, he⟩⟩⟩⟩
      · obtain ⟨r2, h1, -, -, -, h2, -⟩ := SendButton_Click_open_failed rt os s hf
        rw [hsend] at h1
        obtain rfl := Except.ok.inj h1
        rw [h2]; exact hs
      · obtain ⟨r2, hd, h1, -, -, -, -, h2, -⟩ :=
          SendButton_Click_write_failed rt os s opened ho hw
        rw [hsend] at h1
        obtain rfl := Except.ok.inj h1
        rw [h2]; exact hs
      · obtain ⟨r2, hd, h1, -, -, -, -, h2, -⟩ :=
          SendButton_Click_syntax_error rt os s opened written response ho hw hr hn
        rw [hsend] at h1
        obtain rfl := Except.ok.inj h1
        rw [h2]; exact hs
      · obtain ⟨r2, hd, h1, -, -, -, -, hl, -⟩ :=
          SendButton_Click_success rt os s opened written response text ho hw hr hn hc
        rw [hsend] at h1
        obtain rfl := Except.ok.inj h1
        rw [hl]
        rcases hc with ⟨v, hv, rfl⟩ | ⟨-, rfl⟩
        · exact hfmt _ v (Trim_no_sentinel _ hn) hv
        · exact Trim_no_sentinel _ hn
      · rw [SendButton_Click_raised rt os s opened written response e2 ho hw hr hn hc he]
          at hsend
        cases hsend

theorem run_no_sentinel {Double : Type} (rt : Runtime Double)
    (hfmt : ∀ (s : Str) (v : Double), Contains (ToLower s) nan = false →
      rt.ToDouble s = Except.ok v →
      Contains (ToLower (if rt.Equals v (rt.Floor v) then rt.ToStringF0 v
        else rt.ToStringF6 v)) nan = false)
    (events : List Event) :
    ∀ s s' : CalculatorForm, s.run rt events = Except.ok s' →
      Contains (ToLower s.LastResult) nan = false →
      Contains (ToLower s'.LastResult) nan = false := by
  induction events with
  | nil =>
    intro s s' h hs
    simp only [run, pure, Except.pure] at h
    obtain rfl := Except.ok.inj h
    exact hs
  | cons e es ih =>
    intro s s' h hs
    simp only [run, bind, Except.bind] at h
    cases h1 : s.handle rt e with
    | error err => simp [h1] at h
    | ok s1 =>
      simp only [h1] at h
      exact ih s1 s' h (handle_no_sentinel rt hfmt s s1 e h1 hs)

/-- C29: in every state that a sequence of events (token clicks, deletions, clearings,
caret requests, history selections, and evaluations against any system and device) leads to
from the form as loaded, the last result does not show the sentinel in any letter case.
So the text a recall click resolves to does not show it, and neither does the text an
operator click inserts after the left-operand step (the operator alone, or the operator
after `"0"` or after the last result).  The number routines of the runtime are assumed to
format a number that was read from a text without the sentinel as a text without it. -/
theorem last_result_never_shows_sentinel {Double : Type} (rt : Runtime Double)
    (hfmt : ∀ (s : Str) (v : Double), Contains (ToLower s) nan = false →
      rt.ToDouble s = Except.ok v →
      Contains (ToLower (if rt.Equals v (rt.Floor v) then rt.ToStringF0 v
        else rt.ToStringF6 v)) nan = false)
    (events : List Event) (s : CalculatorForm)
    (hrun : initial.run rt events = Except.ok s) :
    Contains (ToLower s.LastResult) nan = false ∧
    (∀ t, s.ClearIfNan.TextToInsert Button.AnsButton = some t →
      Contains (ToLower t) nan = false) ∧
    (∀ op r, ToLower op ∈ MathOperators →
      s.ClearIfNan.LeftOperand s.ClearIfNan.GetCaretPos op = Except.ok r →
      Contains (ToLower r.1) nan = false) := by
  have hinv : Contains (ToLower s.LastResult) nan = false :=
    run_no_sentinel rt hfmt events initial s hrun (by decide)
  refine ⟨hinv, ?_, ?_⟩
  · intro t ht
    simp only [TextToInsert, ClearIfNan_LastResult] at ht
    simp at ht
    rw [← ht.2]
    exact hinv
  · intro op r hop hr
    have hopc : ∀ x ∈ MathOperators, Contains x nan = false := by decide
    by_cases hempty : s.ClearIfNan.InputTextBox.Text = []
    · rw [LeftOperand_empty _ _ _ hop hempty (by simp [GetCaretPos])] at hr
      obtain rfl := Except.ok.inj hr
      simp only [ClearIfNan_LastResult]
      apply operator_append_no_sentinel _ _ hop
      split
      · decide
      · exact hinv
    · rw [LeftOperand_other _ _ _ (Or.inr hempty)] at hr
      obtain rfl := Except.ok.inj hr
      exact hopc _ hop

/-- C29 on a run from the loaded form: `7/2` evaluates to `"3.500000"`, the next
evaluation, of `3.500000/0`, is answered with `"NaN"` and fails; the last result is still
`"3.500000"`. -/
theorem last_result_never_shows_sentinel_witness :
    ∃ s, initial.run decimalRuntime
        [Event.Insert (Button.other ['7']), Event.Insert (Button.other ['/']),
         Event.Insert (Button.other ['2']), Event.Evaluate (deviceAnswering ['3', '.', '5']),
         Event.Insert (Button.other ['/']), Event.Insert (Button.other ['0']),
         Event.Evaluate (deviceAnswering ['N', 'a', 'N'])] = Except.ok s ∧
      s.InputTextBox.Text = ['3', '.', '5', '0', '0', '0', '0', '0', '/', '0'] ∧
      s.LastResult = ['3', '.', '5', '0', '0', '0', '0', '0'] ∧
      Contains (ToLower s.LastResult) nan = false :=
  ⟨_, rfl, rfl, rfl,
    (last_result_never_shows_sentinel decimalRuntime decimalRuntime_no_sentinel
      [Event.Insert (Button.other ['7']), Event.Insert (Button.other ['/']),
       Event.Insert (Button.other ['2']), Event.Evaluate (deviceAnswering ['3', '.', '5']),
       Event.Insert (Button.other ['/']), Event.Insert (Button.other ['0']),
       Event.Evaluate (deviceAnswering ['N', 'a', 'N'])] _ rfl).1⟩

/-! ## A history entry gives back its result -/

theorem StringIndexOf_equals (e rest : Str) (he : '=' ∉ e) :
    StringIndexOf (e ++ '=' :: rest) ['='] = e.length := by
  induction e with
  | nil => simp [StringIndexOf]
  | cons c cs ih =>
    have hc : c ≠ '=' := fun h => he (by simp [h])
    have hcs : '=' ∉ cs := fun h => he (List.mem_cons_of_mem _ h)
    have hi : (cs.length : Int) ≠ -1 := by omega
    have hp : ¬ ('=' = c) := fun h => hc h.symm
    have hpre : List.isPrefixOf ['='] (c :: (cs ++ '=' :: rest)) = false := by
      simp [List.isPrefixOf, hp]
    rw [List.cons_append, StringIndexOf, hpre]
    simp only [Bool.false_eq_true, if_false, ih hcs, hi, List.length_cons, Nat.cast_add,
      Nat.cast_one]

theorem Trim_of_no_outer_white (r : Str)
    (hhead : ∀ c, r.head? = some c → IsWhiteSpace c = false)
    (hlast : ∀ c, r.getLast? = some c → IsWhiteSpace c = false) : Trim r = r := by
  have h1 : r.dropWhile IsWhiteSpace = r := by
    cases r with
    | nil => rfl
    | cons c cs => simp [List.dropWhile_cons, hhead c rfl]
  rw [Trim_eq_rdropWhile, h1, List.rdropWhile_eq_self_iff]
  intro hne
  rw [hlast _ (List.getLast?_eq_getLast _ hne)]
  simp

/-- C30: the entry that the send handler renders for an expression `e` and a result text
`r`, namely `e ++ " = " ++ r`, gives `r` back when it is selected in the history: for `e`
without `=` and `r` without white space at its ends, the handler replaces the selection of
the buffer by exactly `r`, so a buffer `p ++ sel ++ q` with `sel` selected becomes
`p ++ r ++ q` with the caret after `r` (which is what `SelectedText = r` does to the text
box); for the empty `r` that is the selection replaced by the empty text. -/
theorem history_selection_gives_result (form : CalculatorForm) (e r p sel q : Str)
    (he : '=' ∉ e)
    (hhead : ∀ c, r.head? = some c → IsWhiteSpace c = false)
    (hlast : ∀ c, r.getLast? = some c → IsWhiteSpace c = false)
    (hbuf : form.InputTextBox =
      { Text := p ++ sel ++ q, SelectionStart := p.length, SelectionLength := sel.length }) :
    form.OperationsListBox_SelectedIndexChanged (some (e ++ [' ', '=', ' '] ++ r)) =
      Except.ok { form with
        InputTextBox :=
          { Text := p ++ r ++ q, SelectionStart := p.length + r.length, SelectionLength := 0 } } ∧
    form.InputTextBox.setSelectedText r =
      { Text := p ++ r ++ q, SelectionStart := p.length + r.length, SelectionLength := 0 } := by
  obtain ⟨htake, hdrop⟩ := take_drop_selection p sel q
  have hset : form.InputTextBox.setSelectedText r =
      { Text := p ++ r ++ q, SelectionStart := p.length + r.length, SelectionLength := 0 } := by
    rw [hbuf]
    simp only [TextBox.setSelectedText, htake, hdrop]
  have hidx : StringIndexOf (e ++ [' ', '=', ' '] ++ r) ['='] = (e.length : Int) + 1 := by
    have h := StringIndexOf_equals (e ++ [' ']) (' ' :: r) (by simp [he])
    simp only [List.append_assoc, List.singleton_append, List.length_append,
      List.length_singleton, Nat.cast_add, Nat.cast_one] at h
    simpa using h
  have htrim : Trim (' ' :: r) = r := by
    have h : Trim (' ' :: r) = Trim r := by
      simp only [Trim_eq_rdropWhile]
      rw [List.dropWhile_cons_of_pos (by decide)]
    rw [h]
    exact Trim_of_no_outer_white r hhead hlast
  refine ⟨?_, hset⟩
  unfold OperationsListBox_SelectedIndexChanged
  simp only [hidx]
  have hcond : ((e.length : Int) + 1 ≠ -1 ∧
      (e.length : Int) + 1 < ((e ++ [' ', '=', ' '] ++ r).length : Int) - 1) := by
    simp only [List.length_append, List.length_cons, List.length_nil, Nat.cast_add,
      Nat.cast_one]
    omega
  have hsub : Substring (e ++ [' ', '=', ' '] ++ r) ((e.length : Int) + 1 + 1) =
      Except.ok (' ' :: r) := by
    unfold Substring
    have h1 : ¬ ((e.length : Int) + 1 + 1 < 0 ∨
        ((e ++ [' ', '=', ' '] ++ r).length : Int) < (e.length : Int) + 1 + 1) := by
      simp only [List.length_append, List.length_cons, List.length_nil, Nat.cast_add,
        Nat.cast_one]
      omega
    have h2 : ((e.length : Int) + 1 + 1).toNat = (e ++ [' ', '=']).length := by
      simp only [List.length_append, List.length_cons, List.length_nil]
      omega
    have h3 : e ++ [' ', '=', ' '] ++ r = (e ++ [' ', '=']) ++ ' ' :: r := by simp
    rw [if_neg h1, h2, h3, List.drop_left]
    rfl
  rw [if_pos hcond]
  simp only [hsub, bind, Except.bind, pure, Except.pure, htrim, hset]

/-- C30 on the entry `"7/2 = 3.5"` and the buffer `"12"` with `"2"` selected: the buffer
becomes `"13.5"` with the caret at 4. -/
theorem history_selection_gives_result_witness :
    (withBuffer ['1', '2'] 1 1 []).OperationsListBox_SelectedIndexChanged
        (some (['7', '/', '2'] ++ [' ', '=', ' '] ++ ['3', '.', '5'])) =
      Except.ok { withBuffer ['1', '2'] 1 1 [] with
        InputTextBox :=
          { Text := ['1'] ++ ['3', '.', '5'] ++ [],
            SelectionStart := (['1'] : Str).length + (['3', '.', '5'] : Str).length,
            SelectionLength := 0 } } :=
  (history_selection_gives_result (withBuffer ['1', '2'] 1 1 []) ['7', '/', '2']
    ['3', '.', '5'] ['1'] ['2'] [] (by decide) (by decide) (by decide) rfl).1

end BifrostCalculatorApp
